import Mathlib

/-!
Node agent reconciler: configuration merge and reconcile driver.

A shallow embedding of `pkg/resources/nodeagent/nodeagent.go`.

* Go pointers are `Option`s (`nil` is `none`), Go maps are association lists read
  with `StrMap.get`, `int32` fields are `Int`s.
* A Go function returning `(x, error)` is an `Except Fault`: `Fault.error` is a
  returned `error` value, `Fault.crash` a run-time fault (nil dereference) that
  unwinds the callers.
* The external reconciler and the resource factories act on an abstract world
  `σ`; every call is recorded in a trace of `Event`s.
-/

namespace NodeAgent

/-! ## Errors and outcomes -/

/-- Error values built by `emperror.dev/errors` at the call sites of the source. -/
inductive Err where
  /-- `errors.New(msg)`, and errors raised by collaborators. -/
  | msg (text : String)
  /-- `errors.WrapIf(cause, msg)`. -/
  | wrap (cause : Err) (text : String)
  /-- `errors.Errorf("Reconcile error! Resource %#v returns with nil object", factory)`:
  the formatted factory value is kept as the factory identity. -/
  | nilObject (factory : String)
  /-- `errors.WrapWithDetails(cause, msg, "resource", gvk)`. -/
  | wrapWithDetails (cause : Err) (text : String) (gvk : String)
  /-- `errors.Combine(a, b)` of two non-nil errors. -/
  | combined (first second : Err)
  deriving DecidableEq, Repr

/-- How a Go call can fail: by returning an error or by faulting at run time. -/
inductive Fault where
  | error (e : Err)
  | crash (what : String)
  deriving DecidableEq, Repr

/-- Reading through a pointer: a nil pointer faults. -/
def deref {α : Type} (p : Option α) : Except Fault α :=
  match p with
  | some a => .ok a
  | none => .error (.crash "invalid memory address or nil pointer dereference")

/-! ## Maps -/

/-- A Go `map[string]string`. -/
abbrev StrMap := List (String × String)

/-- Map lookup: the first binding of the key. -/
def StrMap.get (m : StrMap) (k : String) : Option String :=
  match m with
  | [] => none
  | (k', v) :: rest => if k' = k then some v else StrMap.get rest k

/-- Map assignment `m[k] = v`. -/
def StrMap.set (m : StrMap) (k v : String) : StrMap :=
  match m with
  | [] => [(k, v)]
  | (k', v') :: rest => if k' = k then (k, v) :: rest else (k', v') :: StrMap.set rest k v

/-! ## Data model

The structures hold the fields that `nodeagent.go` names; their declarations live in
`pkg/sdk/logging/api/v1beta1`, `operator-tools/pkg/typeoverride` and `k8s.io/api`. -/

/-- Holds `v1beta1.Metrics`. -/
structure Metrics where
  Interval : String := ""
  Timeout : String := ""
  Port : Int := 0
  Path : String := ""
  PrometheusAnnotations : Bool := false
  deriving DecidableEq, Repr

/-- Holds `v1.HTTPGetAction`; `Port` is the `IntVal` of the `intstr.IntOrString`. -/
structure HTTPGetAction where
  Path : String := ""
  Port : Int := 0
  deriving DecidableEq, Repr

/-- Holds `v1.Probe` with its embedded `ProbeHandler`. -/
structure Probe where
  HTTPGet : Option HTTPGetAction := none
  InitialDelaySeconds : Int := 0
  TimeoutSeconds : Int := 0
  PeriodSeconds : Int := 0
  SuccessThreshold : Int := 0
  FailureThreshold : Int := 0
  deriving DecidableEq, Repr

/-- Holds `v1.ResourceRequirements`; quantities are kept as written. -/
structure ResourceRequirements where
  Limits : StrMap := []
  Requests : StrMap := []
  deriving DecidableEq, Repr

/-- Holds `v1.Container`. -/
structure Container where
  Name : String := ""
  Image : String := ""
  Command : List String := []
  Args : List String := []
  ImagePullPolicy : String := ""
  Resources : ResourceRequirements := {}
  LivenessProbe : Option Probe := none
  deriving DecidableEq, Repr

/-- Holds `typeoverride.ObjectMeta`. -/
structure ObjectMeta where
  Annotations : StrMap := []
  Labels : StrMap := []
  deriving DecidableEq, Repr

/-- Holds `typeoverride.PodSpec`. -/
structure PodSpec where
  Containers : List Container := []
  NodeSelector : StrMap := []
  deriving DecidableEq, Repr

/-- Holds `typeoverride.PodTemplateSpec`. -/
structure PodTemplateSpec where
  ObjectMeta : ObjectMeta := {}
  Spec : PodSpec := {}
  deriving DecidableEq, Repr

/-- Holds `typeoverride.DaemonSetSpec`. -/
structure DaemonSetSpec where
  Template : PodTemplateSpec := {}
  deriving DecidableEq, Repr

/-- Holds `typeoverride.DaemonSet`. -/
structure DaemonSet where
  Spec : DaemonSetSpec := {}
  deriving DecidableEq, Repr

/-- Holds `v1beta1.InputTail`. -/
structure InputTail where
  Path : String := ""
  RefreshInterval : String := ""
  SkipLongLines : String := ""
  DB : Option String := none
  MemBufLimit : String := ""
  Tag : String := ""
  deriving DecidableEq, Repr

/-- Holds `v1beta1.Security`; the two Kubernetes security contexts are kept as
field-name to value mappings. -/
structure Security where
  ServiceAccount : String := ""
  RoleBasedAccessControlCreate : Option Bool := none
  SecurityContext : Option StrMap := none
  PodSecurityContext : Option StrMap := none
  deriving DecidableEq, Repr

/-- Holds `v1beta1.BufferStorage`. -/
structure BufferStorage where
  StoragePath : String := ""
  deriving DecidableEq, Repr

/-- Holds `v1beta1.ForwardOptions`. -/
structure ForwardOptions where
  RetryLimit : String := ""
  deriving DecidableEq, Repr

/-- Holds `v1beta1.FilterAws`. -/
structure FilterAws where
  ImdsVersion : String := ""
  AZ : Option Bool := none
  Ec2InstanceID : Option Bool := none
  Ec2InstanceType : Option Bool := none
  PrivateIP : Option Bool := none
  AmiID : Option Bool := none
  AccountID : Option Bool := none
  Hostname : Option Bool := none
  VpcID : Option Bool := none
  Match : String := ""
  deriving DecidableEq, Repr

/-- Holds `v1beta1.FilterKubernetes`. -/
structure FilterKubernetes where
  KubeURL : String := ""
  KubeCAFile : String := ""
  KubeTokenFile : String := ""
  KubeTagPrefix : String := ""
  deriving DecidableEq, Repr

/-- Holds `v1beta1.NodeAgentFluentbit`. -/
structure NodeAgentFluentbit where
  DaemonSetOverrides : Option DaemonSet := none
  Flush : Int := 0
  Grace : Int := 0
  LogLevel : String := ""
  CoroStackSize : Int := 0
  Metrics : Option Metrics := none
  Security : Option Security := none
  ContainersPath : String := ""
  VarLogsPath : String := ""
  InputTail : InputTail := {}
  FilterAws : Option FilterAws := none
  FilterKubernetes : FilterKubernetes := {}
  BufferStorage : BufferStorage := {}
  LivenessDefaultCheck : Option Bool := none
  ForwardOptions : Option ForwardOptions := none
  deriving DecidableEq, Repr

/-- Holds `v1beta1.NodeAgentSyslogNG`. -/
structure NodeAgentSyslogNG where
  DaemonSetOverrides : Option DaemonSet := none
  Metrics : Option Metrics := none
  Security : Option Security := none
  ContainersPath : String := ""
  VarLogsPath : String := ""
  BufferStorage : BufferStorage := {}
  deriving DecidableEq, Repr

/-- Holds `types.MetaBase`. -/
structure MetaBase where
  Labels : StrMap := []
  deriving DecidableEq, Repr

/-- Holds `v1beta1.NodeAgentConfig`: the raw and the effective agent configuration. -/
structure NodeAgentConfig where
  Profile : String := ""
  Metadata : MetaBase := {}
  FluentbitSpec : Option NodeAgentFluentbit := none
  SyslogNGSpec : Option NodeAgentSyslogNG := none
  deriving DecidableEq, Repr

/-! ## The layered merge -/

/-- Modelled from the spec: `merge.Merge` of `operator-tools/pkg/merge` is not part of
the sources; this is its rule for a string scalar (spec 4.1, step 4: "scalar fields
are replaced if the override sets a non-zero-value"). -/
def mergeString (base overrides : String) : String :=
  if overrides = "" then base else overrides

/-- Modelled from the spec: the scalar rule of the absent `merge.Merge` for an
integer field; zero is the unset value. -/
def mergeInt (base overrides : Int) : Int :=
  if overrides = 0 then base else overrides

/-- Modelled from the spec: the scalar rule of the absent `merge.Merge` for a boolean
field; `false` is the unset value. -/
def mergeBool (base overrides : Bool) : Bool :=
  if overrides = false then base else overrides

/-- Modelled from the spec: the rule of the absent `merge.Merge` for a sequence that
declares no merge key, such as a command line ("the override sequence replaces the
base sequence wholesale if non-empty"). -/
def mergeSeq {α : Type} (base overrides : List α) : List α :=
  match overrides with
  | [] => base
  | _ :: _ => overrides

/-- Modelled from the spec: the mapping rule of the absent `merge.Merge` ("keys
present in the override replace or add entries in the base"). -/
def mergeMap (base overrides : StrMap) : StrMap :=
  match overrides with
  | [] => base
  | (k, v) :: rest => StrMap.set (mergeMap base rest) k v

/-- Modelled from the spec: the rule of the absent `merge.Merge` for an optional
(pointer) field: "unset optional fields are left as-is", a set one is merged into
the base value by `f`, or taken over when the base has none. -/
def mergePtr {α : Type} (f : α → α → α) (base overrides : Option α) : Option α :=
  match base, overrides with
  | _, none => base
  | none, some o => some o
  | some b, some o => some (f b o)

/-- Modelled from the spec: pointer to a scalar under the absent `merge.Merge`: a set
override replaces the base. -/
def mergeScalarPtr {α : Type} (base overrides : Option α) : Option α :=
  mergePtr (fun _ o => o) base overrides

/-- Modelled from the spec: field-wise merge of `Metrics` under the absent `merge.Merge`. -/
def Metrics.merge (b o : Metrics) : Metrics :=
  { Interval := mergeString b.Interval o.Interval
    Timeout := mergeString b.Timeout o.Timeout
    Port := mergeInt b.Port o.Port
    Path := mergeString b.Path o.Path
    PrometheusAnnotations := mergeBool b.PrometheusAnnotations o.PrometheusAnnotations }

/-- Field-wise merge of `HTTPGetAction` under the absent `merge.Merge`.  The path
follows the scalar rule of the spec; the port is declared without `omitempty`, so a
handler given in the override always carries its port. -/
def HTTPGetAction.merge (b o : HTTPGetAction) : HTTPGetAction :=
  { Path := mergeString b.Path o.Path
    Port := o.Port }

/-- Modelled from the spec: field-wise merge of `Probe` under the absent `merge.Merge`. -/
def Probe.merge (b o : Probe) : Probe :=
  { HTTPGet := mergePtr HTTPGetAction.merge b.HTTPGet o.HTTPGet
    InitialDelaySeconds := mergeInt b.InitialDelaySeconds o.InitialDelaySeconds
    TimeoutSeconds := mergeInt b.TimeoutSeconds o.TimeoutSeconds
    PeriodSeconds := mergeInt b.PeriodSeconds o.PeriodSeconds
    SuccessThreshold := mergeInt b.SuccessThreshold o.SuccessThreshold
    FailureThreshold := mergeInt b.FailureThreshold o.FailureThreshold }

/-- Modelled from the spec: field-wise merge of `ObjectMeta` under the absent `merge.Merge`. -/
def ObjectMeta.merge (b o : ObjectMeta) : ObjectMeta :=
  { Annotations := mergeMap b.Annotations o.Annotations
    Labels := mergeMap b.Labels o.Labels }

/-- Field-wise merge of two containers of the same name under the absent `merge.Merge`:
scalars, the command line and the arguments by the rules of the spec, the resource
quantities key by key, the probe field by field. -/
def Container.merge (b o : Container) : Container :=
  { Name := mergeString b.Name o.Name
    Image := mergeString b.Image o.Image
    Command := mergeSeq b.Command o.Command
    Args := mergeSeq b.Args o.Args
    ImagePullPolicy := mergeString b.ImagePullPolicy o.ImagePullPolicy
    Resources :=
      { Limits := mergeMap b.Resources.Limits o.Resources.Limits
        Requests := mergeMap b.Resources.Requests o.Resources.Requests }
    LivenessProbe := mergePtr Probe.merge b.LivenessProbe o.LivenessProbe }

/-- One container of the override put into the list: merged into the container of the
same name, or added at the end when there is none. -/
def upsertContainer (cs : List Container) (o : Container) : List Container :=
  match cs with
  | [] => [o]
  | c :: rest =>
    if c.Name = o.Name then Container.merge c o :: rest else c :: upsertContainer rest o

/-- Whether a list has a container of this name. -/
def hasContainer (cs : List Container) (name : String) : Bool :=
  cs.any (fun c => c.Name == name)

/-- The position of the container of this name in a list. -/
def containerIndex (cs : List Container) (name : String) : Option Nat :=
  match cs with
  | [] => none
  | c :: rest =>
    if c.Name = name then some 0
    else
      match containerIndex rest name with
      | some i => some (i + 1)
      | none => none

/-- Whether both containers stand in the base list, the first in front of the second. -/
def standsBefore (serverOrder : List Container) (l r : Container) : Bool :=
  match containerIndex serverOrder l.Name, containerIndex serverOrder r.Name with
  | some li, some ri => decide (li < ri)
  | _, _ => false

/-- The order of the merged list: the containers of the override (`right`), in the
order of the override, interleaved with the containers only the base has (`left`); a
base-only container goes first only when the next override container stands behind it
in the base list.  The first argument bounds the number of steps. -/
def mergeSortedSlice (serverOrder : List Container) :
    Nat → List Container → List Container → List Container
  | 0, _, _ => []
  | _ + 1, [], right => right
  | _ + 1, left, [] => left
  | fuel + 1, l :: ls, r :: rs =>
    if standsBefore serverOrder l r then
      l :: mergeSortedSlice serverOrder fuel ls (r :: rs)
    else r :: mergeSortedSlice serverOrder fuel (l :: ls) rs

/-- The rule of the absent `merge.Merge` for the container definitions.  The library is
a strategic merge patch and `typeoverride.PodSpec` declares the containers with the
merge key `name`: a container of the override is merged into the base container of
the same name or added, not put in place of the whole list as the sequence rule of
spec 4.1 words it.  When that changes nothing the list stays as it is; otherwise the
containers the override names come in the order of the override, the others around
them as `mergeSortedSlice` says. -/
def mergeContainers (base overrides : List Container) : List Container :=
  let merged := overrides.foldl upsertContainer base
  if merged = base then base
  else
    let patchItems :=
      overrides.filterMap (fun o => merged.find? (fun c => c.Name == o.Name))
    let serverOnly := merged.filter (fun c => !(hasContainer overrides c.Name))
    mergeSortedSlice base (serverOnly.length + patchItems.length) serverOnly patchItems

/-- Field-wise merge of `PodSpec` under the absent `merge.Merge`: the containers by
name, the node selector by the mapping rule of the spec. -/
def PodSpec.merge (b o : PodSpec) : PodSpec :=
  { Containers := mergeContainers b.Containers o.Containers
    NodeSelector := mergeMap b.NodeSelector o.NodeSelector }

/-- Modelled from the spec: field-wise merge of `PodTemplateSpec` under the absent `merge.Merge`. -/
def PodTemplateSpec.merge (b o : PodTemplateSpec) : PodTemplateSpec :=
  { ObjectMeta := ObjectMeta.merge b.ObjectMeta o.ObjectMeta
    Spec := PodSpec.merge b.Spec o.Spec }

/-- Modelled from the spec: field-wise merge of `DaemonSet` under the absent `merge.Merge`. -/
def DaemonSet.merge (b o : DaemonSet) : DaemonSet :=
  { Spec := { Template := PodTemplateSpec.merge b.Spec.Template o.Spec.Template } }

/-- Modelled from the spec: field-wise merge of `InputTail` under the absent `merge.Merge`. -/
def InputTail.merge (b o : InputTail) : InputTail :=
  { Path := mergeString b.Path o.Path
    RefreshInterval := mergeString b.RefreshInterval o.RefreshInterval
    SkipLongLines := mergeString b.SkipLongLines o.SkipLongLines
    DB := mergeScalarPtr b.DB o.DB
    MemBufLimit := mergeString b.MemBufLimit o.MemBufLimit
    Tag := mergeString b.Tag o.Tag }

/-- Modelled from the spec: field-wise merge of `Security` under the absent `merge.Merge`. -/
def Security.merge (b o : Security) : Security :=
  { ServiceAccount := mergeString b.ServiceAccount o.ServiceAccount
    RoleBasedAccessControlCreate :=
      mergeScalarPtr b.RoleBasedAccessControlCreate o.RoleBasedAccessControlCreate
    SecurityContext := mergePtr mergeMap b.SecurityContext o.SecurityContext
    PodSecurityContext := mergePtr mergeMap b.PodSecurityContext o.PodSecurityContext }

/-- Modelled from the spec: field-wise merge of `BufferStorage` under the absent `merge.Merge`. -/
def BufferStorage.merge (b o : BufferStorage) : BufferStorage :=
  { StoragePath := mergeString b.StoragePath o.StoragePath }

/-- Modelled from the spec: field-wise merge of `ForwardOptions` under the absent `merge.Merge`. -/
def ForwardOptions.merge (b o : ForwardOptions) : ForwardOptions :=
  { RetryLimit := mergeString b.RetryLimit o.RetryLimit }

/-- Modelled from the spec: field-wise merge of `FilterAws` under the absent `merge.Merge`. -/
def FilterAws.merge (b o : FilterAws) : FilterAws :=
  { ImdsVersion := mergeString b.ImdsVersion o.ImdsVersion
    AZ := mergeScalarPtr b.AZ o.AZ
    Ec2InstanceID := mergeScalarPtr b.Ec2InstanceID o.Ec2InstanceID
    Ec2InstanceType := mergeScalarPtr b.Ec2InstanceType o.Ec2InstanceType
    PrivateIP := mergeScalarPtr b.PrivateIP o.PrivateIP
    AmiID := mergeScalarPtr b.AmiID o.AmiID
    AccountID := mergeScalarPtr b.AccountID o.AccountID
    Hostname := mergeScalarPtr b.Hostname o.Hostname
    VpcID := mergeScalarPtr b.VpcID o.VpcID
    Match := mergeString b.Match o.Match }

/-- Modelled from the spec: field-wise merge of `FilterKubernetes` under the absent `merge.Merge`. -/
def FilterKubernetes.merge (b o : FilterKubernetes) : FilterKubernetes :=
  { KubeURL := mergeString b.KubeURL o.KubeURL
    KubeCAFile := mergeString b.KubeCAFile o.KubeCAFile
    KubeTokenFile := mergeString b.KubeTokenFile o.KubeTokenFile
    KubeTagPrefix := mergeString b.KubeTagPrefix o.KubeTagPrefix }

/-- Modelled from the spec: field-wise merge of `NodeAgentFluentbit` under the absent
`merge.Merge`. -/
def NodeAgentFluentbit.merge (b o : NodeAgentFluentbit) : NodeAgentFluentbit :=
  { DaemonSetOverrides := mergePtr DaemonSet.merge b.DaemonSetOverrides o.DaemonSetOverrides
    Flush := mergeInt b.Flush o.Flush
    Grace := mergeInt b.Grace o.Grace
    LogLevel := mergeString b.LogLevel o.LogLevel
    CoroStackSize := mergeInt b.CoroStackSize o.CoroStackSize
    Metrics := mergePtr Metrics.merge b.Metrics o.Metrics
    Security := mergePtr Security.merge b.Security o.Security
    ContainersPath := mergeString b.ContainersPath o.ContainersPath
    VarLogsPath := mergeString b.VarLogsPath o.VarLogsPath
    InputTail := InputTail.merge b.InputTail o.InputTail
    FilterAws := mergePtr FilterAws.merge b.FilterAws o.FilterAws
    FilterKubernetes := FilterKubernetes.merge b.FilterKubernetes o.FilterKubernetes
    BufferStorage := BufferStorage.merge b.BufferStorage o.BufferStorage
    LivenessDefaultCheck := mergeScalarPtr b.LivenessDefaultCheck o.LivenessDefaultCheck
    ForwardOptions := mergePtr ForwardOptions.merge b.ForwardOptions o.ForwardOptions }

/-- Modelled from the spec: field-wise merge of `NodeAgentSyslogNG` under the absent
`merge.Merge`. -/
def NodeAgentSyslogNG.merge (b o : NodeAgentSyslogNG) : NodeAgentSyslogNG :=
  { DaemonSetOverrides := mergePtr DaemonSet.merge b.DaemonSetOverrides o.DaemonSetOverrides
    Metrics := mergePtr Metrics.merge b.Metrics o.Metrics
    Security := mergePtr Security.merge b.Security o.Security
    ContainersPath := mergeString b.ContainersPath o.ContainersPath
    VarLogsPath := mergeString b.VarLogsPath o.VarLogsPath
    BufferStorage := BufferStorage.merge b.BufferStorage o.BufferStorage }

/-- Modelled from the spec: field-wise merge of `NodeAgentConfig` under the absent
`merge.Merge`. -/
def NodeAgentConfig.merge (b o : NodeAgentConfig) : NodeAgentConfig :=
  { Profile := mergeString b.Profile o.Profile
    Metadata := { Labels := mergeMap b.Metadata.Labels o.Metadata.Labels }
    FluentbitSpec := mergePtr NodeAgentFluentbit.merge b.FluentbitSpec o.FluentbitSpec
    SyslogNGSpec := mergePtr NodeAgentSyslogNG.merge b.SyslogNGSpec o.SyslogNGSpec }

/-- The call `merge.Merge(base, overrides)` of the absent `operator-tools/pkg/merge`:
the deep merge `f` of the pointed-to base with the overrides, stored back through the
base pointer (returned here).  A nil base has no value to store into: the library
faults on it in `reflect`, it does not return an error. -/
def Merge {α : Type} (f : α → α → α) (base : Option α) (overrides : α) : Except Fault α :=
  match base with
  | some b => .ok (f b overrides)
  | none => .error (.crash "reflect: call of reflect.Value.Type on zero Value")

/-! ## Constants and defaults -/

def containerNameFluentbit : String := "fluent-bit"
def serviceAccountNameFluentbit : String := "fluentbit"
def serviceAccountNameSyslogNG : String := "syslog-ng"
def containerNameSyslogNG : String := "syslog-ng"
def imageRepositorySyslogNG : String := "ghcr.io/axoflow/syslog-ng"
def imageTagSyslogNG : String := "4.1.1"
def socketPathSyslogNG : String := "/tmp/syslog-ng/syslog-ng.ctl"
def configDirSyslogNG : String := "/etc/syslog-ng/config"
def configKeySyslogNG : String := "syslog-ng.conf"

/-- The call `v1beta1.RepositoryWithTag` (declared outside the sources): the repository,
followed by a colon and the tag when there is a tag. -/
def RepositoryWithTag (repository tag : String) : String :=
  if tag = "" then repository else repository ++ ":" ++ tag

/-- Assignment to `ds.Spec.Template.ObjectMeta`. -/
def DaemonSet.setObjectMeta (ds : DaemonSet) (m : ObjectMeta) : DaemonSet :=
  { ds with Spec := { ds.Spec with Template := { ds.Spec.Template with ObjectMeta := m } } }

/-- Assignment to `ds.Spec.Template.Spec.Containers`. -/
def DaemonSet.setContainers (ds : DaemonSet) (cs : List Container) : DaemonSet :=
  { ds with Spec := { ds.Spec with Template := { ds.Spec.Template with
      Spec := { ds.Spec.Template.Spec with Containers := cs } } } }

/-- The three Prometheus scrape annotations for a resolved metrics sub-spec. -/
def defaultPrometheusAnnotations (m : Metrics) : ObjectMeta :=
  { Annotations :=
      [ ("prometheus.io/scrape", "true"),
        ("prometheus.io/path", m.Path),
        ("prometheus.io/port", toString m.Port) ] }

/-- The default liveness probe for a resolved metrics sub-spec. -/
def defaultLivenessProbe (m : Metrics) : Probe :=
  { HTTPGet := some { Path := m.Path, Port := m.Port }
    InitialDelaySeconds := 10
    TimeoutSeconds := 0
    PeriodSeconds := 10
    SuccessThreshold := 0
    FailureThreshold := 3 }

/-- The statement pair "if `Containers[0].LivenessProbe == nil` then set it to an empty
probe; merge the default probe into it", on the daemon set of the program default.
Indexing an empty container list faults. -/
def mergeLivenessProbe (ds : DaemonSet) (probe : Probe) : Except Fault DaemonSet :=
  match ds.Spec.Template.Spec.Containers with
  | [] => .error (.crash "index out of range [0] with length 0")
  | c :: rest => do
    let current : Option Probe :=
      match c.LivenessProbe with
      | none => some {}
      | some p => some p
    let merged ← Merge Probe.merge current probe
    pure (ds.setContainers ({ c with LivenessProbe := some merged } :: rest))

/-- The literal `programDefault` of `NodeAgentFluentbitDefaults`. -/
def fluentbitProgramDefault : NodeAgentFluentbit :=
  { DaemonSetOverrides := some
      { Spec := { Template :=
          { ObjectMeta := { Annotations := [] }
            Spec := { Containers :=
              [ { Name := containerNameFluentbit
                  Image := "fluent/fluent-bit:1.9.10"
                  Command := ["/fluent-bit/bin/fluent-bit", "-c",
                    "/fluent-bit/conf_operator/fluent-bit.conf"]
                  ImagePullPolicy := "IfNotPresent"
                  Resources :=
                    { Limits := [("memory", "100M"), ("cpu", "200m")]
                      Requests := [("memory", "50M"), ("cpu", "100m")] } } ] } } } }
    Flush := 1
    Grace := 5
    LogLevel := "info"
    CoroStackSize := 24576
    InputTail :=
      { Path := "/var/log/containers/*.log"
        RefreshInterval := "5"
        SkipLongLines := "On"
        DB := some "/tail-db/tail-containers-state.db"
        MemBufLimit := "5MB"
        Tag := "kubernetes.*" }
    Security := some
      { RoleBasedAccessControlCreate := some true
        SecurityContext := some []
        PodSecurityContext := some [] }
    ContainersPath := "/var/lib/docker/containers"
    VarLogsPath := "/var/log"
    BufferStorage := { StoragePath := "/buffers" }
    ForwardOptions := some { RetryLimit := "False" } }

/-- The default `Metrics` that `NodeAgentFluentbitDefaults` starts from when the user
gives a metrics sub-spec. -/
def metricsDefault : Metrics :=
  { Interval := "15s", Timeout := "5s", Port := 2020, Path := "/api/v1/metrics/prometheus" }

/-- The default `FilterAws` that `NodeAgentFluentbitDefaults` starts from. -/
def filterAwsDefault : FilterAws :=
  { ImdsVersion := "v2"
    AZ := some true
    Ec2InstanceID := some true
    Ec2InstanceType := some false
    PrivateIP := some false
    AmiID := some false
    AccountID := some false
    Hostname := some false
    VpcID := some false
    Match := "*" }

/-- The statement "if `userDefined.FluentbitSpec == nil` then set it to an empty
spec": the fluent-forwarder sub-spec that `NodeAgentFluentbitDefaults` reads. -/
def userFluentbitSpec (userDefined : NodeAgentConfig) : NodeAgentFluentbit :=
  match userDefined.FluentbitSpec with
  | none => {}
  | some s => s

/-- The statement "if `userDefined.SyslogNGSpec == nil` then set it to an empty
spec": the syslog sub-spec that `NodeAgentSyslogNGDefaults` reads. -/
def userSyslogNGSpec (userDefined : NodeAgentConfig) : NodeAgentSyslogNG :=
  match userDefined.SyslogNGSpec with
  | none => {}
  | some s => s

/-- The function `NodeAgentFluentbitDefaults`: the baseline of the fluent-forwarder
variant, with the metrics, annotation and liveness-probe derivations. -/
def NodeAgentFluentbitDefaults (userDefined : NodeAgentConfig) :
    Except Fault NodeAgentConfig := do
  let programDefault : NodeAgentFluentbit := fluentbitProgramDefault
  let userSpec : NodeAgentFluentbit := userFluentbitSpec userDefined
  let programDefault ←
    match userSpec.FilterAws with
    | some userAws => do
      let aws ← Merge FilterAws.merge (some filterAwsDefault) userAws
      pure { programDefault with FilterAws := some aws }
    | none => pure programDefault
  let programDefault : NodeAgentFluentbit :=
    if userSpec.LivenessDefaultCheck = none ∨ userSpec.LivenessDefaultCheck = some true then
      if userDefined.Profile ≠ "windows" then
        { programDefault with Metrics := some { Port := 2020, Path := "/" } }
      else programDefault
    else programDefault
  let programDefault ←
    match userSpec.Metrics with
    | some userMetrics => do
      let m ← Merge Metrics.merge (some metricsDefault) userMetrics
      pure { programDefault with Metrics := some m }
    | none => pure programDefault
  let programDefault ←
    match programDefault.Metrics, userSpec.Metrics with
    | some m, some userMetrics =>
      if userMetrics.PrometheusAnnotations then do
        let ds ← deref programDefault.DaemonSetOverrides
        let objectMeta ← Merge ObjectMeta.merge (some ds.Spec.Template.ObjectMeta)
          (defaultPrometheusAnnotations m)
        pure { programDefault with DaemonSetOverrides := some (ds.setObjectMeta objectMeta) }
      else pure programDefault
    | _, _ => pure programDefault
  let programDefault ←
    match programDefault.Metrics with
    | some m => do
      let ds ← deref programDefault.DaemonSetOverrides
      let ds ← mergeLivenessProbe ds (defaultLivenessProbe m)
      pure { programDefault with DaemonSetOverrides := some ds }
    | none => pure programDefault
  pure { FluentbitSpec := some programDefault }

/-- The literal `programDefault` of `NodeAgentSyslogNGDefaults`. -/
def syslogNGProgramDefault : NodeAgentSyslogNG :=
  { DaemonSetOverrides := some
      { Spec := { Template :=
          { ObjectMeta := { Annotations := [] }
            Spec := { Containers :=
              [ { Name := containerNameSyslogNG
                  Image := RepositoryWithTag imageRepositorySyslogNG imageTagSyslogNG
                  Args :=
                    [ "--cfgfile=" ++ configDirSyslogNG ++ "/" ++ configKeySyslogNG,
                      "--control=" ++ socketPathSyslogNG,
                      "--no-caps",
                      "-Fe" ]
                  ImagePullPolicy := "IfNotPresent"
                  Resources :=
                    { Limits := [("memory", "400M"), ("cpu", "1000m")]
                      Requests := [("memory", "100M"), ("cpu", "500m")] } } ] } } } }
    Security := some
      { RoleBasedAccessControlCreate := some true
        SecurityContext := some []
        PodSecurityContext := some [] }
    ContainersPath := "/var/lib/docker/containers"
    VarLogsPath := "/var/log"
    BufferStorage := { StoragePath := "/buffers" } }

/-- The function `NodeAgentSyslogNGDefaults`: the baseline of the syslog variant.  The
annotations and the probe read `programDefault.SyslogNGSpec.Metrics`, which the
literal leaves nil. -/
def NodeAgentSyslogNGDefaults (userDefined : NodeAgentConfig) :
    Except Fault NodeAgentConfig := do
  let programDefault : NodeAgentSyslogNG := syslogNGProgramDefault
  let userSpec : NodeAgentSyslogNG := userSyslogNGSpec userDefined
  let programDefault ←
    match userSpec.Metrics with
    | some userMetrics => do
      let programDefault ←
        if userMetrics.PrometheusAnnotations then do
          let m ← deref programDefault.Metrics
          let ds ← deref programDefault.DaemonSetOverrides
          let objectMeta ← Merge ObjectMeta.merge (some ds.Spec.Template.ObjectMeta)
            (defaultPrometheusAnnotations m)
          pure { programDefault with DaemonSetOverrides := some (ds.setObjectMeta objectMeta) }
        else pure programDefault
      let m ← deref programDefault.Metrics
      let ds ← deref programDefault.DaemonSetOverrides
      let ds ← mergeLivenessProbe ds (defaultLivenessProbe m)
      pure { programDefault with DaemonSetOverrides := some ds }
    | none => pure programDefault
  pure { SyslogNGSpec := some programDefault }

/-- The variable `NodeAgentFluentbitWindowsDefaults`: the overlay of the "windows" profile. -/
def NodeAgentFluentbitWindowsDefaults : NodeAgentConfig :=
  { FluentbitSpec := some
      { FilterKubernetes :=
          { KubeURL := "https://kubernetes.default.svc:443"
            KubeCAFile := "c:\\var\\run\\secrets\\kubernetes.io\\serviceaccount\\ca.crt"
            KubeTokenFile := "c:\\var\\run\\secrets\\kubernetes.io\\serviceaccount\\token"
            KubeTagPrefix := "kubernetes.C.var.log.containers." }
        InputTail := { Path := "C:\\var\\log\\containers\\*.log" }
        ContainersPath := "C:\\ProgramData\\docker"
        VarLogsPath := "C:\\var\\log"
        DaemonSetOverrides := some
          { Spec := { Template := { Spec :=
              { Containers :=
                  [ { Name := containerNameFluentbit
                      Image := "rancher/fluent-bit:1.6.10-rc7"
                      Command := ["fluent-bit", "-c",
                        "fluent-bit\\conf_operator\\fluent-bit.conf"]
                      Resources :=
                        { Limits := [("memory", "200M"), ("cpu", "200m")]
                          Requests := [("memory", "100M"), ("cpu", "100m")] } } ]
                NodeSelector := [("kubernetes.io/os", "windows")] } } } } } }

/-- The variable `NodeAgentFluentbitLinuxDefaults`: the overlay of every other profile. -/
def NodeAgentFluentbitLinuxDefaults : NodeAgentConfig :=
  { FluentbitSpec := some {} }

/-- The fleet context `v1beta1.Logging` as the source reads it: the name of the
logging resource and the result of its method `ClusterDomainAsSuffix`. -/
structure Logging where
  Name : String := ""
  ClusterDomainAsSuffix : String := ""
  deriving DecidableEq, Repr

/-- Assignment to `cfg.FluentbitSpec.FilterKubernetes.KubeURL`, through the
`FluentbitSpec` pointer. -/
def NodeAgentConfig.setKubeURL (cfg : NodeAgentConfig) (url : String) :
    Except Fault NodeAgentConfig := do
  let spec ← deref cfg.FluentbitSpec
  let filterKubernetes : FilterKubernetes := { spec.FilterKubernetes with KubeURL := url }
  pure { cfg with FluentbitSpec := some { spec with FilterKubernetes := filterKubernetes } }

/-- Lines 453 to 489 of `processAgent`: the exclusivity check, the baseline of the
chosen variant, the profile overlay with the Kubernetes endpoint rewrite, and the
merge of the user override.  It yields the effective spec that the instance is
built from. -/
def processAgentConfig (logging : Logging) (userDefinedAgent : NodeAgentConfig) :
    Except Fault NodeAgentConfig := do
  if userDefinedAgent.FluentbitSpec ≠ none ∧ userDefinedAgent.SyslogNGSpec ≠ none then
    throw (.error (.msg "only one agent implementation can be specified for a single nodeAgent"))
  let nodeAgentConfig : Option NodeAgentConfig := none
  let nodeAgentConfig ←
    if userDefinedAgent.FluentbitSpec ≠ none then do
      let cfg ← NodeAgentFluentbitDefaults userDefinedAgent
      if userDefinedAgent.Profile = "windows" then do
        let cfg ← Merge NodeAgentConfig.merge (some cfg) NodeAgentFluentbitWindowsDefaults
        let cfg ← cfg.setKubeURL
          ("https://kubernetes.default.svc" ++ logging.ClusterDomainAsSuffix ++ ":443")
        pure (some cfg)
      else do
        let cfg ← Merge NodeAgentConfig.merge (some cfg) NodeAgentFluentbitLinuxDefaults
        pure (some cfg)
    else pure nodeAgentConfig
  let nodeAgentConfig ←
    if userDefinedAgent.SyslogNGSpec ≠ none then do
      let cfg ← NodeAgentSyslogNGDefaults userDefinedAgent
      pure (some cfg)
    else pure nodeAgentConfig
  Merge NodeAgentConfig.merge nodeAgentConfig userDefinedAgent

/-! ## The reconcile driver -/

/-- Holds `reconcile.Result`: the requeue hint of the external reconciler. -/
structure Result where
  Requeue : Bool := false
  RequeueAfter : Nat := 0
  deriving DecidableEq, Repr

/-- Holds `reconciler.DesiredState`, the lifecycle state a factory asks for. -/
inductive DesiredState where
  | StatePresent
  | StateAbsent
  deriving DecidableEq, Repr

/-- A desired object (`runtime.Object`) as the driver reads it: its
`GetObjectKind().GroupVersionKind()` and its name. -/
structure Object where
  GroupVersionKind : String
  Name : String
  deriving DecidableEq, Repr

/-- The calls the driver makes, in order. -/
inductive Event where
  /-- A call of `processAgent` for the named instance. -/
  | processAgent (name : String)
  /-- A call of the resource factory with this identity. -/
  | factory (ident : String)
  /-- A call of `ReconcileResource` on the external reconciler. -/
  | reconcileResource (o : Object) (state : DesiredState)
  deriving DecidableEq, Repr

/-- The triple `(runtime.Object, reconciler.DesiredState, error)` a factory returns. -/
structure FactoryResult where
  object : Option Object
  state : DesiredState
  err : Option Err
  deriving DecidableEq, Repr

/-- A `resources.Resource` function value: its identity (what `%#v` prints of it) and
its effect on the world. -/
structure Resource (σ : Type) where
  ident : String
  call : σ → FactoryResult × σ

/-- The method `GenericResourceReconciler.ReconcileResource` of the external
reconciler: it answers `(result, err)` and may change the world. -/
abbrev ReconcileResource (σ : Type) :=
  Object → DesiredState → σ → (Option Result × Option Err) × σ

/-- What a call of the driver leaves behind: how it ended, the world after it and
the calls it made. -/
structure Run (σ α : Type) where
  outcome : Except Fault α
  world : σ
  trace : List Event

/-- Puts earlier calls in front of the trace of a run. -/
def Run.after {σ α : Type} (earlier : List Event) (run : Run σ α) : Run σ α :=
  { run with trace := earlier ++ run.trace }

/-- Number of calls of the external reconciler in a trace. -/
def reconcileCalls : List Event → Nat
  | [] => 0
  | .reconcileResource _ _ :: rest => reconcileCalls rest + 1
  | _ :: rest => reconcileCalls rest

/-- Identities of the factories called in a trace, in call order. -/
def factoryCalls : List Event → List String
  | [] => []
  | .factory ident :: rest => ident :: factoryCalls rest
  | _ :: rest => factoryCalls rest

/-- Instance names `processAgent` was called for in a trace, in call order. -/
def agentCalls : List Event → List String
  | [] => []
  | .processAgent name :: rest => name :: agentCalls rest
  | _ :: rest => agentCalls rest

/-- The type `nodeAgentInstance`.  The pointer `nodeAgent` is never nil: the only
instances are built by `processAgent` from a successful merge.  The reconciler and
the data provider are collaborators, passed to the functions that call them. -/
structure nodeAgentInstance where
  name : String
  nodeAgent : NodeAgentConfig
  logging : Logging
  deriving DecidableEq, Repr

/-- The ten resource factories, methods of `nodeAgentInstance` that are declared in
other files of the package. -/
structure ResourceFactories (σ : Type) where
  serviceAccount : nodeAgentInstance → σ → FactoryResult × σ
  clusterRole : nodeAgentInstance → σ → FactoryResult × σ
  clusterRoleBinding : nodeAgentInstance → σ → FactoryResult × σ
  clusterPodSecurityPolicy : nodeAgentInstance → σ → FactoryResult × σ
  pspClusterRole : nodeAgentInstance → σ → FactoryResult × σ
  pspClusterRoleBinding : nodeAgentInstance → σ → FactoryResult × σ
  configSecret : nodeAgentInstance → σ → FactoryResult × σ
  daemonSet : nodeAgentInstance → σ → FactoryResult × σ
  serviceMetrics : nodeAgentInstance → σ → FactoryResult × σ
  monitorServiceMetrics : nodeAgentInstance → σ → FactoryResult × σ

/-- The slice literal `[]resources.Resource{n.serviceAccount, ...}` of `Reconcile`. -/
def nodeAgentInstance.factories {σ : Type} (F : ResourceFactories σ) (n : nodeAgentInstance) :
    List (Resource σ) :=
  [ { ident := "serviceAccount", call := F.serviceAccount n },
    { ident := "clusterRole", call := F.clusterRole n },
    { ident := "clusterRoleBinding", call := F.clusterRoleBinding n },
    { ident := "clusterPodSecurityPolicy", call := F.clusterPodSecurityPolicy n },
    { ident := "pspClusterRole", call := F.pspClusterRole n },
    { ident := "pspClusterRoleBinding", call := F.pspClusterRoleBinding n },
    { ident := "configSecret", call := F.configSecret n },
    { ident := "daemonSet", call := F.daemonSet n },
    { ident := "serviceMetrics", call := F.serviceMetrics n },
    { ident := "monitorServiceMetrics", call := F.monitorServiceMetrics n } ]

/-- The loop body of `nodeAgentInstance.Reconcile`, over any factory sequence. -/
def reconcileResources {σ : Type} (rr : ReconcileResource σ) :
    List (Resource σ) → σ → Run σ (Option Result)
  | [], w => { outcome := .ok none, world := w, trace := [] }
  | factory :: rest, w =>
    match factory.call w with
    | (out, w1) =>
      match out.err with
      | some err =>
        { outcome := .error (.error (.wrap err "failed to create desired object"))
          world := w1
          trace := [.factory factory.ident] }
      | none =>
        match out.object with
        | none =>
          { outcome := .error (.error (.nilObject factory.ident))
            world := w1
            trace := [.factory factory.ident] }
        | some o =>
          match rr o out.state w1 with
          | ((_, some err), w2) =>
            { outcome := .error (.error
                (.wrapWithDetails err "failed to reconcile resource" o.GroupVersionKind))
              world := w2
              trace := [.factory factory.ident, .reconcileResource o out.state] }
          | ((some result, none), w2) =>
            { outcome := .ok (some result)
              world := w2
              trace := [.factory factory.ident, .reconcileResource o out.state] }
          | ((none, none), w2) =>
            (reconcileResources rr rest w2).after
              [.factory factory.ident, .reconcileResource o out.state]

/-- The method `nodeAgentInstance.Reconcile`: the loop over the ten factories. -/
def nodeAgentInstance.Reconcile {σ : Type} (F : ResourceFactories σ) (rr : ReconcileResource σ)
    (n : nodeAgentInstance) (w : σ) : Run σ (Option Result) :=
  reconcileResources rr (n.factories F) w

/-- The method `Reconciler.processAgent`: builds the effective spec, then reconciles
the instance made from it. -/
def processAgent {σ : Type} (F : ResourceFactories σ) (rr : ReconcileResource σ)
    (logging : Logging) (name : String) (userDefinedAgent : NodeAgentConfig) (w : σ) :
    Run σ (Option Result) :=
  match processAgentConfig logging userDefinedAgent with
  | .error fault => { outcome := .error fault, world := w, trace := [.processAgent name] }
  | .ok nodeAgentConfig =>
    let inst : nodeAgentInstance :=
      { name := name, nodeAgent := nodeAgentConfig, logging := logging }
    (inst.Reconcile F rr w).after [.processAgent name]

/-- Holds `reconciler.CombinedResult`. -/
structure CombinedResult where
  Result : Result := {}
  Err : Option Err := none
  deriving DecidableEq, Repr

/-- Modelled from the spec: `errors.Combine` as used by the absent
`CombinedResult.Combine`: "multiple failures across instances are combined, not
dropped". -/
def combineErr (a b : Option Err) : Option Err :=
  match a, b with
  | none, b => b
  | some a, none => some a
  | some a, some b => some (.combined a b)

/-- Modelled from the spec: `CombinedResult.Combine` of `operator-tools/pkg/reconciler`
is not part of the sources.  The error is recorded; a requeue hint is taken over,
and of two waiting times the more urgent (shorter positive) one is kept. -/
def CombinedResult.Combine (c : CombinedResult) (sub : Option NodeAgent.Result)
    (err : Option NodeAgent.Err) :
    CombinedResult :=
  { Err := combineErr c.Err err
    Result :=
      match sub with
      | none => c.Result
      | some r =>
        { Requeue := c.Result.Requeue || r.Requeue
          RequeueAfter :=
            if c.Result.RequeueAfter = 0 then r.RequeueAfter
            else if r.RequeueAfter = 0 then c.Result.RequeueAfter
            else min c.Result.RequeueAfter r.RequeueAfter } }

/-- The loop of `Reconciler.Reconcile` over the entries of `r.agents` in the order the
map iteration yields them.  A fault in `processAgent` unwinds the loop. -/
def reconcileAgents {σ : Type} (F : ResourceFactories σ) (rr : ReconcileResource σ)
    (logging : Logging) :
    List (String × NodeAgentConfig) → CombinedResult → σ → Run σ CombinedResult
  | [], combinedResult, w => { outcome := .ok combinedResult, world := w, trace := [] }
  | (name, userDefinedAgent) :: rest, combinedResult, w =>
    let run := processAgent F rr logging name userDefinedAgent w
    match run.outcome with
    | .error (.crash what) =>
      { outcome := .error (.crash what), world := run.world, trace := run.trace }
    | .error (.error err) =>
      (reconcileAgents F rr logging rest (combinedResult.Combine none (some err))
        run.world).after run.trace
    | .ok result =>
      (reconcileAgents F rr logging rest (combinedResult.Combine result none)
        run.world).after run.trace

/-- The type `Reconciler` as `Reconcile` reads it: the fleet context and the agents
map, as the list of its entries in iteration order. -/
structure Reconciler where
  Logging : Logging
  agents : List (String × NodeAgentConfig)
  deriving DecidableEq, Repr

/-- The method `Reconciler.Reconcile`: returns `(&combinedResult.Result, combinedResult.Err)`. -/
def Reconciler.Reconcile {σ : Type} (F : ResourceFactories σ) (rr : ReconcileResource σ)
    (r : Reconciler) (w : σ) : Run σ (Result × Option Err) :=
  let run := reconcileAgents F rr r.Logging r.agents {} w
  { outcome := run.outcome.map (fun c => (c.Result, c.Err))
    world := run.world
    trace := run.trace }

/-- Runs a factory sequence as long as every factory yields an object without error
and the reconciler answers `(nil, nil)` (NoChangeNeeded): the world after the last
of them, or `none` as soon as one factory or answer deviates. -/
def noChangeNeeded {σ : Type} (rr : ReconcileResource σ) : List (Resource σ) → σ → Option σ
  | [], w => some w
  | factory :: rest, w =>
    match factory.call w with
    | (out, w1) =>
      match out.err, out.object with
      | none, some o =>
        match rr o out.state w1 with
        | ((none, none), w2) => noChangeNeeded rr rest w2
        | _ => none
      | _, _ => none

/-- Whether a trace is exactly: each listed factory called, each call directly
followed by one call of the reconciler, in the listed order. -/
def submittedInOrder : List Event → List String → Bool
  | [], [] => true
  | .factory ident :: .reconcileResource _ _ :: rest, expected :: more =>
    ident == expected && submittedInOrder rest more
  | _, _ => false

/-! ## Names and labels -/

/-- The method `nodeAgentInstance.QualifiedName`:
`fmt.Sprintf("%s-%s-%s", n.logging.Name, n.name, name)`. -/
def nodeAgentInstance.QualifiedName (n : nodeAgentInstance) (name : String) : String :=
  n.logging.Name ++ "-" ++ n.name ++ "-" ++ name

/-- The method `nodeAgentInstance.AggregatorQualifiedName`:
`fmt.Sprintf("%s-%s", n.logging.Name, name)`. -/
def nodeAgentInstance.AggregatorQualifiedName (n : nodeAgentInstance) (name : String) : String :=
  n.logging.Name ++ "-" ++ name

/-- The function `generateLoggingRefLabels`. -/
def generateLoggingRefLabels (loggingRef : String) : StrMap :=
  [("app.kubernetes.io/managed-by", loggingRef)]

/-- Modelled from the spec: `util.MergeLabels` of `operator-tools/pkg/utils` is not part
of the sources.  The label set is the union of the groups (spec 4.2); the groups are
written into the result in argument order, so a key of a later group replaces the
same key of an earlier one. -/
def MergeLabels (labelGroups : List StrMap) : StrMap :=
  labelGroups.foldl mergeMap []

/-- The method `nodeAgentInstance.getNodeAgentLabels`; `none` is the nil map. -/
def nodeAgentInstance.getNodeAgentLabels (n : nodeAgentInstance) : Option StrMap :=
  if n.nodeAgent.FluentbitSpec ≠ none then
    some (MergeLabels
      [ n.nodeAgent.Metadata.Labels,
        [ ("app.kubernetes.io/name", "fluentbit"),
          ("app.kubernetes.io/instance", n.name) ],
        generateLoggingRefLabels n.logging.Name ])
  else if n.nodeAgent.SyslogNGSpec ≠ none then
    some (MergeLabels
      [ n.nodeAgent.Metadata.Labels,
        [ ("app.kubernetes.io/name", "syslog-ng"),
          ("app.kubernetes.io/instance", n.name) ],
        generateLoggingRefLabels n.logging.Name ])
  else none

/-- The method `nodeAgentInstance.getServiceAccount`. -/
def nodeAgentInstance.getServiceAccount (n : nodeAgentInstance) : String :=
  match n.nodeAgent.FluentbitSpec with
  | some fluentbitSpec =>
    match fluentbitSpec.Security with
    | some security =>
      if security.ServiceAccount ≠ "" then security.ServiceAccount
      else n.QualifiedName serviceAccountNameFluentbit
    | none => n.QualifiedName serviceAccountNameFluentbit
  | none =>
    match n.nodeAgent.SyslogNGSpec with
    | some syslogNGSpec =>
      match syslogNGSpec.Security with
      | some security =>
        if security.ServiceAccount ≠ "" then security.ServiceAccount
        else n.QualifiedName serviceAccountNameSyslogNG
      | none => n.QualifiedName serviceAccountNameSyslogNG
    | none => ""

/-! ## Closed forms

What the defaulting code computes, written as plain expressions; the theorems below
prove that the embedded functions return these values. -/

/-- The metrics sub-spec that `NodeAgentFluentbitDefaults` resolves: the metrics
defaults under the user's values when the user gives a metrics sub-spec; otherwise the
liveness-check metrics, unless that check is switched off or the profile is "windows". -/
def resolvedMetrics (userDefined : NodeAgentConfig) : Option Metrics :=
  match (userFluentbitSpec userDefined).Metrics with
  | some userMetrics =>
    some (Metrics.merge metricsDefault userMetrics)
  | none =>
    if ((userFluentbitSpec userDefined).LivenessDefaultCheck = none ∨
        (userFluentbitSpec userDefined).LivenessDefaultCheck = some true) ∧
        userDefined.Profile ≠ "windows" then
      some { Port := 2020, Path := "/" }
    else none

/-- The pod-template annotations that `NodeAgentFluentbitDefaults` resolves. -/
def resolvedAnnotations (userDefined : NodeAgentConfig) : StrMap :=
  match (userFluentbitSpec userDefined).Metrics, resolvedMetrics userDefined with
  | some userMetrics, some m =>
    if userMetrics.PrometheusAnnotations then
      mergeMap [] (defaultPrometheusAnnotations m).Annotations
    else []
  | _, _ => []

/-- The liveness probe that `NodeAgentFluentbitDefaults` gives the primary container. -/
def resolvedLivenessProbe (userDefined : NodeAgentConfig) : Option Probe :=
  match resolvedMetrics userDefined with
  | some m => some (Probe.merge {} (defaultLivenessProbe m))
  | none => none

/-- The fluent-forwarder spec that `NodeAgentFluentbitDefaults` returns. -/
def fluentbitDefaultsSpec (userDefined : NodeAgentConfig) : NodeAgentFluentbit :=
  { fluentbitProgramDefault with
    FilterAws :=
      match (userFluentbitSpec userDefined).FilterAws with
      | some userAws => some (FilterAws.merge filterAwsDefault userAws)
      | none => none
    Metrics := resolvedMetrics userDefined
    DaemonSetOverrides := some
      { Spec := { Template :=
          { ObjectMeta := { Annotations := resolvedAnnotations userDefined }
            Spec := { Containers :=
              [ { Name := containerNameFluentbit
                  Image := "fluent/fluent-bit:1.9.10"
                  Command := ["/fluent-bit/bin/fluent-bit", "-c",
                    "/fluent-bit/conf_operator/fluent-bit.conf"]
                  ImagePullPolicy := "IfNotPresent"
                  Resources :=
                    { Limits := [("memory", "100M"), ("cpu", "200m")]
                      Requests := [("memory", "50M"), ("cpu", "100m")] }
                  LivenessProbe := resolvedLivenessProbe userDefined } ] } } } } }

/-- The fluent-forwarder spec after the profile overlay: the defaults under the
windows overlay with the Kubernetes endpoint rewritten for the cluster domain, or
under the empty overlay of every other profile. -/
def overlaidSpec (logging : Logging) (userDefined : NodeAgentConfig) : NodeAgentFluentbit :=
  if userDefined.Profile = "windows" then
    { NodeAgentFluentbit.merge (fluentbitDefaultsSpec userDefined)
        (userFluentbitSpec NodeAgentFluentbitWindowsDefaults) with
      FilterKubernetes :=
        { KubeURL := "https://kubernetes.default.svc" ++ logging.ClusterDomainAsSuffix ++ ":443"
          KubeCAFile := "c:\\var\\run\\secrets\\kubernetes.io\\serviceaccount\\ca.crt"
          KubeTokenFile := "c:\\var\\run\\secrets\\kubernetes.io\\serviceaccount\\token"
          KubeTagPrefix := "kubernetes.C.var.log.containers." } }
  else NodeAgentFluentbit.merge (fluentbitDefaultsSpec userDefined) {}

/-- A config with the Kubernetes-API URL field blanked: two configs agree on every
other field exactly when their images under this function are equal. -/
def withoutKubeURL (cfg : NodeAgentConfig) : NodeAgentConfig :=
  { cfg with FluentbitSpec :=
      match cfg.FluentbitSpec with
      | none => none
      | some spec =>
        some { spec with FilterKubernetes := { spec.FilterKubernetes with KubeURL := "" } } }

/-- The pod-template annotations of a fluent-forwarder spec; none when the daemon set
overrides are absent. -/
def podAnnotations (spec : NodeAgentFluentbit) : StrMap :=
  match spec.DaemonSetOverrides with
  | none => []
  | some ds => ds.Spec.Template.ObjectMeta.Annotations

/-- The container definitions of a fluent-forwarder spec; none when the daemon set
overrides are absent. -/
def podContainers (spec : NodeAgentFluentbit) : List Container :=
  match spec.DaemonSetOverrides with
  | none => []
  | some ds => ds.Spec.Template.Spec.Containers

/-- The fluent-forwarder part of the effective spec that `processAgent` builds the
instance from; `none` when lines 453 to 489 fail or the spec has no such part. -/
def effectiveFluentbit (logging : Logging) (userDefined : NodeAgentConfig) :
    Option NodeAgentFluentbit :=
  match processAgentConfig logging userDefined with
  | .ok nodeAgentConfig => nodeAgentConfig.FluentbitSpec
  | .error _ => none

/-- The container of the literal `programDefault` of `NodeAgentFluentbitDefaults`. -/
def fluentbitBaselineContainer : Container :=
  { Name := "fluent-bit"
    Image := "fluent/fluent-bit:1.9.10"
    Command := ["/fluent-bit/bin/fluent-bit", "-c", "/fluent-bit/conf_operator/fluent-bit.conf"]
    ImagePullPolicy := "IfNotPresent"
    Resources :=
      { Limits := [("memory", "100M"), ("cpu", "200m")]
        Requests := [("memory", "50M"), ("cpu", "100m")] } }

/-- The container of `NodeAgentFluentbitWindowsDefaults`. -/
def fluentbitWindowsContainer : Container :=
  { Name := "fluent-bit"
    Image := "rancher/fluent-bit:1.6.10-rc7"
    Command := ["fluent-bit", "-c", "fluent-bit\\conf_operator\\fluent-bit.conf"]
    Resources :=
      { Limits := [("memory", "200M"), ("cpu", "200m")]
        Requests := [("memory", "100M"), ("cpu", "100m")] } }

/-- The container of this name in a list, if any. -/
def findContainer (cs : List Container) (name : String) : Option Container :=
  cs.find? (fun c => c.Name == name)

/-- The container that the defaults and the profile overlay leave in the spec: the
baseline container with the derived liveness probe, under the container of the
windows overlay when the profile is "windows". -/
def overlaidContainer (userDefined : NodeAgentConfig) : Container :=
  if userDefined.Profile = "windows" then
    Container.merge
      { fluentbitBaselineContainer with LivenessProbe := resolvedLivenessProbe userDefined }
      fluentbitWindowsContainer
  else { fluentbitBaselineContainer with LivenessProbe := resolvedLivenessProbe userDefined }

/-! ## Sample configurations -/

/-- A windows agent whose user sets the containers path. -/
def sampleWindowsSpec : NodeAgentFluentbit :=
  { ContainersPath := "D:\\docker" }

/-- A fluent-forwarder config with profile "windows". -/
def sampleWindowsConfig : NodeAgentConfig :=
  { Profile := "windows", FluentbitSpec := some sampleWindowsSpec }

/-- A windows agent whose user sets the Kubernetes-API URL. -/
def sampleKubeURLSpec : NodeAgentFluentbit :=
  { FilterKubernetes := { KubeURL := "https://10.0.0.1:6443" } }

/-- A fluent-forwarder config with profile "windows" and a user-given API URL. -/
def sampleKubeURLConfig : NodeAgentConfig :=
  { Profile := "windows", FluentbitSpec := some sampleKubeURLSpec }

/-- The metrics sub-spec of the spec's scrape example: path `/metrics`, port 9100. -/
def sampleMetrics : Metrics :=
  { Path := "/metrics", Port := 9100, PrometheusAnnotations := true }

/-- A linux agent with scrape annotations requested and one annotation of its own. -/
def sampleScrapeSpec : NodeAgentFluentbit :=
  { Metrics := some sampleMetrics
    LogLevel := "debug"
    DaemonSetOverrides := some
      { Spec := { Template := { ObjectMeta := { Annotations := [("team", "logging")] } } } } }

/-- A fluent-forwarder config with scrape annotations requested. -/
def sampleScrapeConfig : NodeAgentConfig :=
  { FluentbitSpec := some sampleScrapeSpec }

/-- A fleet context with a cluster domain. -/
def sampleLogging : Logging :=
  { Name := "myfleet", ClusterDomainAsSuffix := ".cluster.local" }

/-- A syslog agent with a metrics sub-spec. -/
def sampleSyslogMetricsConfig : NodeAgentConfig :=
  { SyslogNGSpec := some { Metrics := some {} } }

/-- A fluent-forwarder agent with every field left to the defaults. -/
def sampleFluentbitConfig : NodeAgentConfig :=
  { FluentbitSpec := some {} }

/-- An agent with both variants given. -/
def sampleConflictConfig : NodeAgentConfig :=
  { FluentbitSpec := some {}, SyslogNGSpec := some {} }

/-- A fleet with a syslog agent with metrics, iterated first, and a fluent-forwarder agent. -/
def sampleFleetSyslogFirst : Reconciler :=
  { Logging := sampleLogging
    agents := [("syslog", sampleSyslogMetricsConfig), ("fluentbit", sampleFluentbitConfig)] }

/-- The same fleet with the fluent-forwarder agent iterated first. -/
def sampleFleetSyslogLast : Reconciler :=
  { Logging := sampleLogging
    agents := [("fluentbit", sampleFluentbitConfig), ("syslog", sampleSyslogMetricsConfig)] }

/-- A fleet with a conflicting agent, iterated first, and a fluent-forwarder agent. -/
def sampleFleetConflictFirst : Reconciler :=
  { Logging := sampleLogging
    agents := [("both", sampleConflictConfig), ("fluentbit", sampleFluentbitConfig)] }

/-- An instance of the fleet "myfleet" with the given instance name and effective spec. -/
def fleetInstance (name : String) (nodeAgent : NodeAgentConfig) : nodeAgentInstance :=
  { name := name, nodeAgent := nodeAgent, logging := { Name := "myfleet" } }

/-- A fluent-forwarder spec whose user names the service account and declares a label
under a key that the operator sets as well. -/
def sampleLabelledConfig : NodeAgentConfig :=
  { Metadata := { Labels := [("team", "logging"), ("app.kubernetes.io/name", "mine")] }
    FluentbitSpec := some { Security := some { ServiceAccount := "custom-sa" } } }

/-- A syslog agent with a metrics sub-spec that asks for scrape annotations. -/
def sampleSyslogScrapeConfig : NodeAgentConfig :=
  { SyslogNGSpec := some { Metrics := some { PrometheusAnnotations := true } } }

/-- A syslog agent without metrics sub-spec. -/
def sampleSyslogConfig : NodeAgentConfig :=
  { SyslogNGSpec := some {} }

/-- The default liveness probe of the liveness-check metrics: HTTP GET "/" on port 2020. -/
def livenessCheckProbe : Probe :=
  { HTTPGet := some { Path := "/", Port := 2020 }
    InitialDelaySeconds := 10
    TimeoutSeconds := 0
    PeriodSeconds := 10
    SuccessThreshold := 0
    FailureThreshold := 3 }

/-- A windows agent with a metrics sub-spec. -/
def sampleWindowsMetricsConfig : NodeAgentConfig :=
  { Profile := "windows", FluentbitSpec := some { Metrics := some {} } }

/-- A daemon set override that gives the container definitions. -/
def sampleOwnContainers : DaemonSet :=
  { Spec := { Template := { Spec :=
      { Containers := [{ Name := "fluent-bit", Image := "example/fluent-bit:custom" }] } } } }

/-- A linux agent whose user gives the container definitions; its metrics are the
liveness-check metrics. -/
def sampleOwnContainerConfig : NodeAgentConfig :=
  { FluentbitSpec := some { DaemonSetOverrides := some sampleOwnContainers } }

/-- A windows agent whose user gives the image of the fluent-bit container and raises
its memory limit. -/
def sampleWindowsImageContainer : Container :=
  { Name := "fluent-bit"
    Image := "example/fluent-bit:windows"
    Resources := { Limits := [("memory", "300M")] } }

/-- The fluent-forwarder sub-spec of the windows agent with its own image. -/
def sampleWindowsImageSpec : NodeAgentFluentbit :=
  { ContainersPath := "D:\\docker"
    DaemonSetOverrides := some
      { Spec := { Template := { Spec := { Containers := [sampleWindowsImageContainer] } } } } }

/-- A fluent-forwarder config with profile "windows" and an image of the user. -/
def sampleWindowsImageConfig : NodeAgentConfig :=
  { Profile := "windows", FluentbitSpec := some sampleWindowsImageSpec }

/-- The security context that the user gives, the empty one when the user gives none. -/
def userSecurityContext (us : NodeAgentFluentbit) : StrMap :=
  match us.Security with
  | some sec =>
    match sec.SecurityContext with
    | some sc => sc
    | none => []
  | none => []

/-- The pod security context that the user gives, the empty one when the user gives none. -/
def userPodSecurityContext (us : NodeAgentFluentbit) : StrMap :=
  match us.Security with
  | some sec =>
    match sec.PodSecurityContext with
    | some sc => sc
    | none => []
  | none => []

/-- A linux agent whose user sets the log level, one memory limit of the fluent-bit
container and an annotation. -/
def sampleTunedSpec : NodeAgentFluentbit :=
  { LogLevel := "debug"
    DaemonSetOverrides := some
      { Spec := { Template :=
          { ObjectMeta := { Annotations := [("team", "logging")] }
            Spec := { Containers :=
              [{ Name := "fluent-bit", Resources := { Limits := [("memory", "150M")] } }] } } } } }

/-- The user's container of the tuned linux agent. -/
def sampleTunedContainer : Container :=
  { Name := "fluent-bit", Resources := { Limits := [("memory", "150M")] } }

/-- A fluent-forwarder config of the tuned linux agent. -/
def sampleTunedConfig : NodeAgentConfig :=
  { FluentbitSpec := some sampleTunedSpec }

/-- The user's probe for a container: the probe the container carries, the empty probe
when it carries none. -/
def userProbe (uc : Option Container) : Probe :=
  match uc with
  | some u =>
    match u.LivenessProbe with
    | some p => p
    | none => {}
  | none => {}

/-- A daemon set override that puts a sidecar in front of the fluent-bit container. -/
def sampleSidecarFirst : DaemonSet :=
  { Spec := { Template := { Spec :=
      { Containers :=
          [ { Name := "sidecar", Image := "example/sidecar:1" },
            { Name := "fluent-bit", Image := "example/fluent-bit:custom" } ] } } } }

/-- A linux agent whose user lists a sidecar before the fluent-bit container; its
metrics are the liveness-check metrics. -/
def sampleSidecarConfig : NodeAgentConfig :=
  { FluentbitSpec := some { DaemonSetOverrides := some sampleSidecarFirst } }

/-- A user's fluent-bit container that sets the period of the liveness probe. -/
def samplePeriodContainer : Container :=
  { Name := "fluent-bit", LivenessProbe := some { PeriodSeconds := 30 } }

/-- The fluent-forwarder sub-spec of the agent with its own probe period. -/
def samplePeriodSpec : NodeAgentFluentbit :=
  { DaemonSetOverrides := some
      { Spec := { Template := { Spec := { Containers := [samplePeriodContainer] } } } } }

/-- A linux agent whose user sets the period of the liveness probe. -/
def samplePeriodConfig : NodeAgentConfig :=
  { FluentbitSpec := some samplePeriodSpec }

/-! ## Sample collaborators

Concrete factories and reconcilers over a world that counts the calls made. -/

/-- A factory that yields a present object of the given kind, named after the instance. -/
def sampleFactory (kind : String) (n : nodeAgentInstance) (w : Nat) : FactoryResult × Nat :=
  ({ object := some { GroupVersionKind := kind, Name := n.name }
     state := .StatePresent
     err := none }, w + 1)

/-- A factory that fails with an error of its own. -/
def failingFactory (n : nodeAgentInstance) (w : Nat) : FactoryResult × Nat :=
  let _ := n
  ({ object := none, state := .StatePresent, err := some (.msg "cannot build object") }, w + 1)

/-- A factory that yields neither an object nor an error. -/
def nilFactory (n : nodeAgentInstance) (w : Nat) : FactoryResult × Nat :=
  let _ := n
  ({ object := none, state := .StatePresent, err := none }, w + 1)

/-- Ten factories that all yield an object. -/
def sampleFactories : ResourceFactories Nat :=
  { serviceAccount := sampleFactory "ServiceAccount"
    clusterRole := sampleFactory "ClusterRole"
    clusterRoleBinding := sampleFactory "ClusterRoleBinding"
    clusterPodSecurityPolicy := sampleFactory "PodSecurityPolicy"
    pspClusterRole := sampleFactory "ClusterRole"
    pspClusterRoleBinding := sampleFactory "ClusterRoleBinding"
    configSecret := sampleFactory "Secret"
    daemonSet := sampleFactory "DaemonSet"
    serviceMetrics := sampleFactory "Service"
    monitorServiceMetrics := sampleFactory "ServiceMonitor" }

/-- A reconciler that fails on objects of kind `failing`, has a change pending for
objects of kind `pending`, and finds every other object up to date. -/
def sampleReconciler (pending failing : String) : ReconcileResource Nat :=
  fun o _ w =>
    if o.GroupVersionKind = failing then ((none, some (.msg "apply failed")), w + 1)
    else if o.GroupVersionKind = pending then ((some { Requeue := true }, none), w + 1)
    else ((none, none), w + 1)

/-- Ten factories of which the first, the service account, fails. -/
def serviceAccountFails : ResourceFactories Nat :=
  { sampleFactories with serviceAccount := failingFactory }

/-- Ten factories of which the second, the cluster role, fails. -/
def clusterRoleFails : ResourceFactories Nat :=
  { sampleFactories with clusterRole := failingFactory }

/-- Ten factories of which the third, the cluster role binding, yields nil. -/
def clusterRoleBindingNil : ResourceFactories Nat :=
  { sampleFactories with clusterRoleBinding := nilFactory }

/-- An instance of the fleet "myfleet". -/
def sampleInstance : nodeAgentInstance :=
  { name := "agentA", nodeAgent := {}, logging := { Name := "myfleet" } }

end NodeAgent

namespace NodeAgent

/-! ## Facts about traces and the factory walk -/

theorem reconcileCalls_append (a b : List Event) :
    reconcileCalls (a ++ b) = reconcileCalls a + reconcileCalls b := by
  induction a with
  | nil => simp [reconcileCalls]
  | cons e rest ih =>
    cases e <;> simp [reconcileCalls, ih]
    omega

theorem factoryCalls_append (a b : List Event) :
    factoryCalls (a ++ b) = factoryCalls a ++ factoryCalls b := by
  induction a with
  | nil => simp [factoryCalls]
  | cons e rest ih =>
    cases e <;> simp [factoryCalls, ih]

theorem agentCalls_append (a b : List Event) :
    agentCalls (a ++ b) = agentCalls a ++ agentCalls b := by
  induction a with
  | nil => simp [agentCalls]
  | cons e rest ih =>
    cases e <;> simp [agentCalls, ih]

/-- The walk over `pre ++ rest`, when every factory of `pre` is answered
NoChangeNeeded, is the walk over `rest` from the world `pre` leaves, after one
factory call and one reconciler call per factory of `pre`. -/
theorem reconcileResources_append {σ : Type} (rr : ReconcileResource σ)
    (pre rest : List (Resource σ)) (w w1 : σ) (h : noChangeNeeded rr pre w = some w1) :
    ∃ tr : List Event,
      reconcileResources rr (pre ++ rest) w = (reconcileResources rr rest w1).after tr ∧
      reconcileCalls tr = pre.length ∧
      factoryCalls tr = pre.map (fun f => f.ident) ∧
      ∀ t ids, submittedInOrder (tr ++ t) (pre.map (fun f => f.ident) ++ ids)
        = submittedInOrder t ids := by
  induction pre generalizing w with
  | nil =>
    refine ⟨[], ?_, rfl, rfl, ?_⟩
    · simp only [noChangeNeeded, Option.some.injEq] at h
      subst h
      simp [Run.after]
    · intro t ids
      simp
  | cons f ps ih =>
    rw [noChangeNeeded] at h
    rcases hc : f.call w with ⟨out, w'⟩
    rw [hc] at h
    simp only at h
    rcases he : out.err with _ | e
    · rcases ho : out.object with _ | o
      · rw [he, ho] at h
        simp at h
      · rw [he, ho] at h
        simp only at h
        rcases hr : rr o out.state w' with ⟨⟨res, er⟩, w2⟩
        rw [hr] at h
        cases res <;> cases er <;> simp only [reduceCtorEq] at h
        obtain ⟨tr, h1, h2, h3, h4⟩ := ih w2 h
        refine ⟨[.factory f.ident, .reconcileResource o out.state] ++ tr, ?_, ?_, ?_, ?_⟩
        · rw [List.cons_append, reconcileResources, hc]
          simp only [he, ho, hr, h1, Run.after, List.cons_append, List.nil_append]
        · simp [reconcileCalls, h2]
        · simp [factoryCalls, h3]
        · intro t ids
          simp [submittedInOrder, h4]
    · rw [he] at h
      simp at h

/-- An element at position `k` (counted from one) splits the list around it. -/
theorem split_at_position {α : Type} (fs : List α) (k : Nat) (hk1 : 1 ≤ k) (f : α)
    (hf : fs[k - 1]? = some f) :
    fs = fs.take (k - 1) ++ f :: fs.drop k ∧ fs.take k = fs.take (k - 1) ++ [f] := by
  obtain ⟨h, rfl⟩ := List.getElem?_eq_some.mp hf
  have hk : k = (k - 1) + 1 := by omega
  constructor
  · conv_lhs => rw [← List.take_append_drop (k - 1) fs]
    rw [List.drop_eq_getElem_cons h, ← hk]
  · conv_lhs => rw [hk]
    rw [List.take_succ, List.getElem?_eq_getElem h]
    rfl

/-- The walk up to and including position `k`, when the factories before `k` are
answered NoChangeNeeded: what remains is the walk from factory `k` on. -/
theorem reconcileResources_at_position {σ : Type} (rr : ReconcileResource σ)
    (fs : List (Resource σ)) (k : Nat) (hk1 : 1 ≤ k) (f : Resource σ)
    (hf : fs[k - 1]? = some f) (w w1 : σ)
    (hprev : noChangeNeeded rr (fs.take (k - 1)) w = some w1) :
    ∃ tr : List Event,
      reconcileResources rr fs w = (reconcileResources rr (f :: fs.drop k) w1).after tr ∧
      reconcileCalls tr = k - 1 ∧
      factoryCalls tr ++ [f.ident] = (fs.take k).map (fun g => g.ident) := by
  obtain ⟨hsplit, htake⟩ := split_at_position fs k hk1 f hf
  obtain ⟨tr, h1, h2, h3, _⟩ := reconcileResources_append rr (fs.take (k - 1)) (f :: fs.drop k) w w1 hprev
  refine ⟨tr, ?_, ?_, ?_⟩
  · rw [← hsplit] at h1
    exact h1
  · rw [h2, List.length_take]
    have : k - 1 < fs.length := (List.getElem?_eq_some.mp hf).1
    omega
  · rw [htake, h3]
    simp

/-! ## The claims -/

/-- C1: for every instance name and every raw agent config with both the
fluent-forwarder and the syslog variant populated, `processAgent` returns the
configuration-conflict error and no result, leaves the world as it was, and its
trace holds the `processAgent` call alone: no factory call, no reconciler call. -/
theorem processAgent_both_variants {σ : Type} (F : ResourceFactories σ)
    (rr : ReconcileResource σ) (logging : Logging) (name : String)
    (userDefinedAgent : NodeAgentConfig) (w : σ)
    (hf : userDefinedAgent.FluentbitSpec ≠ none) (hs : userDefinedAgent.SyslogNGSpec ≠ none) :
    (processAgent F rr logging name userDefinedAgent w).outcome
        = .error (.error
            (.msg "only one agent implementation can be specified for a single nodeAgent")) ∧
      (processAgent F rr logging name userDefinedAgent w).world = w ∧
      (processAgent F rr logging name userDefinedAgent w).trace = [.processAgent name] ∧
      factoryCalls (processAgent F rr logging name userDefinedAgent w).trace = [] ∧
      reconcileCalls (processAgent F rr logging name userDefinedAgent w).trace = 0 := by
  have hcfg : processAgentConfig logging userDefinedAgent
      = .error (.error
          (.msg "only one agent implementation can be specified for a single nodeAgent")) := by
    simp [processAgentConfig, hf, hs, throw, throwThe, MonadExceptOf.throw, bind, Except.bind]
  simp [processAgent, hcfg, factoryCalls, reconcileCalls]

/-- Witness of C1: an instance with both variants given. -/
theorem processAgent_both_variants_witness :
    (processAgent sampleFactories (sampleReconciler "" "") {} "agentA"
        { FluentbitSpec := some {}, SyslogNGSpec := some {} } 0).trace
      = [.processAgent "agentA"] :=
  (processAgent_both_variants sampleFactories (sampleReconciler "" "") {} "agentA"
    { FluentbitSpec := some {}, SyslogNGSpec := some {} } 0 (by decide) (by decide)).2.2.1

/-- C2: for every factory sequence `fs` and every position `k` with
`1 ≤ k ≤ fs.length`: if the factories before `k` each yield an object that the
reconciler answers with NoChangeNeeded, and factory `k` yields an object (and no
error) that the reconciler answers with a result `r` and no error, then the walk
over `fs` (the loop itself, and `nodeAgentInstance.Reconcile` whenever `fs` is the
factory list of the instance) returns `r` with a nil error, calls the reconciler
exactly `k` times and calls exactly the first `k` factories. -/
theorem reconcile_stops_at_pending_change {σ : Type} (rr : ReconcileResource σ)
    (fs : List (Resource σ)) (k : Nat) (hk1 : 1 ≤ k) (hkN : k ≤ fs.length)
    (f : Resource σ) (hf : fs[k - 1]? = some f) (w w1 w2 w3 : σ)
    (out : FactoryResult) (o : Object) (r : Result)
    (hprev : noChangeNeeded rr (fs.take (k - 1)) w = some w1)
    (hcall : f.call w1 = (out, w2)) (herr : out.err = none) (hobj : out.object = some o)
    (hpending : rr o out.state w2 = ((some r, none), w3)) :
    ∀ run : Run σ (Option Result),
      (run = reconcileResources rr fs w ∨
        ∃ F n, fs = nodeAgentInstance.factories F n ∧
          run = nodeAgentInstance.Reconcile F rr n w) →
      run.outcome = .ok (some r) ∧ run.world = w3 ∧
        reconcileCalls run.trace = k ∧
        factoryCalls run.trace = (fs.take k).map (fun g => g.ident) ∧
        (factoryCalls run.trace).length = k := by
  intro run hrun
  have hrun' : run = reconcileResources rr fs w := by
    rcases hrun with h | ⟨F, n, hfs, h⟩
    · exact h
    · rw [h, hfs, nodeAgentInstance.Reconcile]
  obtain ⟨tr, h1, h2, h3⟩ := reconcileResources_at_position rr fs k hk1 f hf w w1 hprev
  have hstep : reconcileResources rr (f :: fs.drop k) w1
      = { outcome := .ok (some r), world := w3,
          trace := [.factory f.ident, .reconcileResource o out.state] } := by
    rw [reconcileResources, hcall]
    simp only [herr, hobj, hpending]
  rw [hrun', h1, hstep]
  have hcalls : factoryCalls (tr ++ [Event.factory f.ident, Event.reconcileResource o out.state])
      = (fs.take k).map (fun g => g.ident) := by
    rw [factoryCalls_append, ← h3]
    simp [factoryCalls]
  refine ⟨rfl, rfl, ?_, hcalls, ?_⟩
  · simp only [Run.after, reconcileCalls_append, h2, reconcileCalls]
    omega
  · simp only [Run.after, hcalls, List.length_map, List.length_take]
    omega

/-- Witness of C2: with all ten factories yielding objects and a change pending on
the daemon set (the eighth factory), `Reconcile` returns the requeue result after
eight reconciler calls and never calls the two metrics factories. -/
theorem reconcile_stops_at_pending_change_witness :
    (nodeAgentInstance.Reconcile sampleFactories (sampleReconciler "DaemonSet" "")
        sampleInstance 0).outcome = .ok (some { Requeue := true }) ∧
      reconcileCalls (nodeAgentInstance.Reconcile sampleFactories
        (sampleReconciler "DaemonSet" "") sampleInstance 0).trace = 8 ∧
      factoryCalls (nodeAgentInstance.Reconcile sampleFactories
        (sampleReconciler "DaemonSet" "") sampleInstance 0).trace
        = ["serviceAccount", "clusterRole", "clusterRoleBinding", "clusterPodSecurityPolicy",
           "pspClusterRole", "pspClusterRoleBinding", "configSecret", "daemonSet"] := by
  have h := reconcile_stops_at_pending_change (sampleReconciler "DaemonSet" "")
    (nodeAgentInstance.factories sampleFactories sampleInstance) 8 (by decide) (by decide)
    { ident := "daemonSet", call := sampleFactories.daemonSet sampleInstance } rfl
    0 14 15 16
    { object := some { GroupVersionKind := "DaemonSet", Name := "agentA" }
      state := .StatePresent, err := none }
    { GroupVersionKind := "DaemonSet", Name := "agentA" } { Requeue := true }
    (by decide) rfl rfl rfl (by decide)
    (nodeAgentInstance.Reconcile sampleFactories (sampleReconciler "DaemonSet" "")
      sampleInstance 0)
    (Or.inr ⟨sampleFactories, sampleInstance, rfl, rfl⟩)
  exact ⟨h.1, h.2.2.1, h.2.2.2.1⟩

/-- C10: if each of the ten factories yields an object and the reconciler answers
NoChangeNeeded for each, `nodeAgentInstance.Reconcile` returns `(nil, nil)`; its
trace is exactly the ten factories, each call directly followed by one reconciler
call, in the order service account, cluster role, cluster role binding, pod
security policy, PSP cluster role, PSP cluster role binding, config secret, daemon
set, metrics service, metrics service monitor: ten reconciler calls, the account
and permission resources before the workload. -/
theorem reconcile_all_no_change {σ : Type} (F : ResourceFactories σ) (rr : ReconcileResource σ)
    (n : nodeAgentInstance) (w w1 : σ)
    (hall : noChangeNeeded rr (n.factories F) w = some w1) :
    (n.Reconcile F rr w).outcome = .ok none ∧
      (n.Reconcile F rr w).world = w1 ∧
      reconcileCalls (n.Reconcile F rr w).trace = 10 ∧
      factoryCalls (n.Reconcile F rr w).trace
        = ["serviceAccount", "clusterRole", "clusterRoleBinding", "clusterPodSecurityPolicy",
           "pspClusterRole", "pspClusterRoleBinding", "configSecret", "daemonSet",
           "serviceMetrics", "monitorServiceMetrics"] ∧
      submittedInOrder (n.Reconcile F rr w).trace
        ["serviceAccount", "clusterRole", "clusterRoleBinding", "clusterPodSecurityPolicy",
         "pspClusterRole", "pspClusterRoleBinding", "configSecret", "daemonSet",
         "serviceMetrics", "monitorServiceMetrics"] = true := by
  obtain ⟨tr, h1, h2, h3, h4⟩ := reconcileResources_append rr (n.factories F) [] w w1 hall
  have hrun : n.Reconcile F rr w = { outcome := .ok none, world := w1, trace := tr } := by
    rw [nodeAgentInstance.Reconcile, ← List.append_nil (n.factories F), h1]
    simp [reconcileResources, Run.after]
  rw [hrun]
  refine ⟨rfl, rfl, ?_, ?_, ?_⟩
  · rw [h2]
    rfl
  · rw [h3]
    rfl
  · have h := h4 [] []
    simp only [List.append_nil] at h
    simpa [nodeAgentInstance.factories, submittedInOrder] using h

/-- Witness of C10: ten factories yielding objects and a reconciler with nothing to do. -/
theorem reconcile_all_no_change_witness :
    noChangeNeeded (sampleReconciler "" "")
        (nodeAgentInstance.factories sampleFactories sampleInstance) 0 = some 20 ∧
      (nodeAgentInstance.Reconcile sampleFactories (sampleReconciler "" "")
        sampleInstance 0).outcome = .ok none ∧
      reconcileCalls (nodeAgentInstance.Reconcile sampleFactories (sampleReconciler "" "")
        sampleInstance 0).trace = 10 :=
  ⟨by decide,
   (reconcile_all_no_change sampleFactories (sampleReconciler "" "") sampleInstance 0 20
      (by decide)).1,
   (reconcile_all_no_change sampleFactories (sampleReconciler "" "") sampleInstance 0 20
      (by decide)).2.2.1⟩

/-- C9, as stated, fails: when the service account factory fails, and when the
cluster role factory fails with the same error after the service account was found
up to date, `Reconcile` returns one and the same error, the factory error wrapped
with a fixed message; the returned error does not tell the two offending factories
apart. -/
theorem reconcile_factory_error_not_identified :
    (nodeAgentInstance.Reconcile serviceAccountFails (sampleReconciler "" "")
        sampleInstance 0).outcome
      = .error (.error (.wrap (.msg "cannot build object") "failed to create desired object")) ∧
    (nodeAgentInstance.Reconcile clusterRoleFails (sampleReconciler "" "")
        sampleInstance 0).outcome
      = .error (.error (.wrap (.msg "cannot build object") "failed to create desired object")) ∧
    factoryCalls (nodeAgentInstance.Reconcile serviceAccountFails (sampleReconciler "" "")
        sampleInstance 0).trace = ["serviceAccount"] ∧
    factoryCalls (nodeAgentInstance.Reconcile clusterRoleFails (sampleReconciler "" "")
        sampleInstance 0).trace = ["serviceAccount", "clusterRole"] := by
  refine ⟨rfl, rfl, rfl, rfl⟩

/-- C9, amended: for every factory sequence `fs` and position `k`, if the factories
before `k` are answered NoChangeNeeded, the walk over `fs` (the loop, and
`nodeAgentInstance.Reconcile` when `fs` is the factory list of the instance) calls
exactly the first `k` factories and returns no result and
* the error of factory `k` wrapped with "failed to create desired object", after
  `k - 1` reconciler calls, when factory `k` returns an error;
* an error holding the identity of factory `k`, after `k - 1` reconciler calls, when
  factory `k` returns neither an error nor an object;
* the reconciler error wrapped with "failed to reconcile resource" and the kind of
  the object, after `k` reconciler calls, when the reconciler fails on the object of
  factory `k`. -/
theorem reconcile_fails_at_position {σ : Type} (rr : ReconcileResource σ)
    (fs : List (Resource σ)) (k : Nat) (hk1 : 1 ≤ k)
    (f : Resource σ) (hf : fs[k - 1]? = some f) (w w1 w2 : σ) (out : FactoryResult)
    (hprev : noChangeNeeded rr (fs.take (k - 1)) w = some w1)
    (hcall : f.call w1 = (out, w2)) :
    ∀ run : Run σ (Option Result),
      (run = reconcileResources rr fs w ∨
        ∃ F n, fs = nodeAgentInstance.factories F n ∧
          run = nodeAgentInstance.Reconcile F rr n w) →
      (∀ e, out.err = some e →
        run.outcome = .error (.error (.wrap e "failed to create desired object")) ∧
        run.world = w2 ∧ reconcileCalls run.trace = k - 1 ∧
        factoryCalls run.trace = (fs.take k).map (fun g => g.ident)) ∧
      (out.err = none → out.object = none →
        run.outcome = .error (.error (.nilObject f.ident)) ∧
        run.world = w2 ∧ reconcileCalls run.trace = k - 1 ∧
        factoryCalls run.trace = (fs.take k).map (fun g => g.ident)) ∧
      (∀ o res e w3, out.err = none → out.object = some o →
        rr o out.state w2 = ((res, some e), w3) →
        run.outcome = .error (.error
          (.wrapWithDetails e "failed to reconcile resource" o.GroupVersionKind)) ∧
        run.world = w3 ∧ reconcileCalls run.trace = k ∧
        factoryCalls run.trace = (fs.take k).map (fun g => g.ident)) := by
  intro run hrun
  have hrun' : run = reconcileResources rr fs w := by
    rcases hrun with h | ⟨F, n, hfs, h⟩
    · exact h
    · rw [h, hfs, nodeAgentInstance.Reconcile]
  obtain ⟨tr, h1, h2, h3⟩ := reconcileResources_at_position rr fs k hk1 f hf w w1 hprev
  rw [hrun', h1]
  refine ⟨?_, ?_, ?_⟩
  · intro e he
    have hstep : reconcileResources rr (f :: fs.drop k) w1
        = { outcome := .error (.error (.wrap e "failed to create desired object"))
            world := w2, trace := [.factory f.ident] } := by
      rw [reconcileResources, hcall]
      simp only [he]
    rw [hstep]
    refine ⟨rfl, rfl, ?_, ?_⟩
    · simp only [Run.after, reconcileCalls_append, h2, reconcileCalls]
      omega
    · simp only [Run.after, factoryCalls_append, ← h3, factoryCalls]
  · intro he ho
    have hstep : reconcileResources rr (f :: fs.drop k) w1
        = { outcome := .error (.error (.nilObject f.ident))
            world := w2, trace := [.factory f.ident] } := by
      rw [reconcileResources, hcall]
      simp only [he, ho]
    rw [hstep]
    refine ⟨rfl, rfl, ?_, ?_⟩
    · simp only [Run.after, reconcileCalls_append, h2, reconcileCalls]
      omega
    · simp only [Run.after, factoryCalls_append, ← h3, factoryCalls]
  · intro o res e w3 he ho hr
    have hstep : reconcileResources rr (f :: fs.drop k) w1
        = { outcome := .error (.error
              (.wrapWithDetails e "failed to reconcile resource" o.GroupVersionKind))
            world := w3, trace := [.factory f.ident, .reconcileResource o out.state] } := by
      rw [reconcileResources, hcall]
      simp only [he, ho, hr]
    rw [hstep]
    refine ⟨rfl, rfl, ?_, ?_⟩
    · simp only [Run.after, reconcileCalls_append, h2, reconcileCalls]
      omega
    · simp only [Run.after, factoryCalls_append, ← h3, factoryCalls]

/-- Witness of amended C9: the cluster role binding factory, third in the order,
yields nil after two resources were found up to date. -/
theorem reconcile_fails_at_position_witness :
    noChangeNeeded (sampleReconciler "" "")
        ((nodeAgentInstance.factories clusterRoleBindingNil sampleInstance).take (3 - 1)) 0
      = some 4 ∧
    (nodeAgentInstance.Reconcile clusterRoleBindingNil (sampleReconciler "" "")
        sampleInstance 0).outcome = .error (.error (.nilObject "clusterRoleBinding")) ∧
    reconcileCalls (nodeAgentInstance.Reconcile clusterRoleBindingNil (sampleReconciler "" "")
        sampleInstance 0).trace = 3 - 1 :=
  ⟨by decide,
   ((reconcile_fails_at_position (sampleReconciler "" "")
      (nodeAgentInstance.factories clusterRoleBindingNil sampleInstance) 3 (by decide)
      { ident := "clusterRoleBinding", call := nilFactory sampleInstance } rfl 0 4 5
      { object := none, state := .StatePresent, err := none } (by decide) rfl
      (nodeAgentInstance.Reconcile clusterRoleBindingNil (sampleReconciler "" "")
        sampleInstance 0)
      (Or.inr ⟨clusterRoleBindingNil, sampleInstance, rfl, rfl⟩)).2.1 rfl rfl).1,
   ((reconcile_fails_at_position (sampleReconciler "" "")
      (nodeAgentInstance.factories clusterRoleBindingNil sampleInstance) 3 (by decide)
      { ident := "clusterRoleBinding", call := nilFactory sampleInstance } rfl 0 4 5
      { object := none, state := .StatePresent, err := none } (by decide) rfl
      (nodeAgentInstance.Reconcile clusterRoleBindingNil (sampleReconciler "" "")
        sampleInstance 0)
      (Or.inr ⟨clusterRoleBindingNil, sampleInstance, rfl, rfl⟩)).2.1 rfl rfl).2.2.1⟩

/-! ## The effective spec -/

/-- The function `NodeAgentFluentbitDefaults` never fails: it returns its closed form. -/
theorem NodeAgentFluentbitDefaults_eq (userDefined : NodeAgentConfig) :
    NodeAgentFluentbitDefaults userDefined
      = .ok { FluentbitSpec := some (fluentbitDefaultsSpec userDefined) } := by
  unfold NodeAgentFluentbitDefaults fluentbitDefaultsSpec resolvedAnnotations
    resolvedLivenessProbe resolvedMetrics
  generalize userFluentbitSpec userDefined = us
  obtain ⟨ds, fl, gr, ll, css, metrics, sec, cp, vlp, it, aws, fk, bs, ldc, fo⟩ := us
  by_cases hP : userDefined.Profile = "windows"
  · rcases aws with _ | aws <;> rcases ldc with _ | _ | _ <;>
      rcases metrics with _ | ⟨i, t, po, pa, _ | _⟩ <;>
      simp only [hP, ne_eq, not_true_eq_false, and_false, if_false] <;> rfl
  · rcases aws with _ | aws <;> rcases ldc with _ | _ | _ <;>
      rcases metrics with _ | ⟨i, t, po, pa, _ | _⟩ <;>
      simp only [hP, ne_eq, not_false_eq_true, and_true, if_true] <;> rfl

/-- For a fluent-forwarder config, lines 453 to 489 of `processAgent` succeed: the
effective spec is the overlaid defaults under the user override. -/
theorem processAgentConfig_fluentbit (logging : Logging) (userDefined : NodeAgentConfig)
    (us : NodeAgentFluentbit) (hf : userDefined.FluentbitSpec = some us)
    (hs : userDefined.SyslogNGSpec = none) :
    processAgentConfig logging userDefined
      = .ok { Profile := userDefined.Profile
              Metadata := { Labels := mergeMap [] userDefined.Metadata.Labels }
              FluentbitSpec := some (NodeAgentFluentbit.merge (overlaidSpec logging userDefined) us)
              SyslogNGSpec := none } := by
  unfold processAgentConfig overlaidSpec
  rw [NodeAgentFluentbitDefaults_eq]
  by_cases hP : userDefined.Profile = "windows"
  · simp only [hf, hs, hP, ne_eq, not_true_eq_false, and_false, if_false, not_false_eq_true,
      if_true, reduceCtorEq, Merge, bind, Except.bind, pure, Except.pure,
      NodeAgentConfig.setKubeURL, deref, NodeAgentConfig.merge, mergePtr,
      NodeAgentFluentbitWindowsDefaults, userFluentbitSpec, mergeString, mergeMap]
    rfl
  · simp only [hf, hs, hP, ne_eq, not_true_eq_false, and_false, if_false, not_false_eq_true,
      if_true, reduceCtorEq, Merge, bind, Except.bind, pure, Except.pure,
      NodeAgentConfig.merge, mergePtr, NodeAgentFluentbitLinuxDefaults, mergeString, mergeMap]
    by_cases hE : userDefined.Profile = "" <;> simp [hE]

theorem StrMap.get_set (m : StrMap) (k v k' : String) :
    StrMap.get (StrMap.set m k v) k' = if k = k' then some v else StrMap.get m k' := by
  induction m with
  | nil => simp [StrMap.set, StrMap.get]
  | cons e rest ih =>
    obtain ⟨a, b⟩ := e
    by_cases h : a = k
    · subst h
      by_cases h' : a = k' <;> simp [StrMap.set, StrMap.get, h']
    · by_cases h' : a = k'
      · subst h'
        have hk : ¬ k = a := fun e => h e.symm
        simp [StrMap.set, StrMap.get, h, hk]
      · simp [StrMap.set, StrMap.get, h, h', ih]

/-- Reading a merged mapping: the binding of the override, else that of the base. -/
theorem StrMap.get_mergeMap (base overrides : StrMap) (k : String) :
    StrMap.get (mergeMap base overrides) k
      = match StrMap.get overrides k with
        | some v => some v
        | none => StrMap.get base k := by
  induction overrides with
  | nil => simp [mergeMap, StrMap.get]
  | cons e rest ih =>
    obtain ⟨a, b⟩ := e
    by_cases h : a = k <;> simp [mergeMap, StrMap.get, StrMap.get_set, h, ih]

theorem mergeString_idem (a b : String) : mergeString (mergeString a b) b = mergeString a b := by
  unfold mergeString
  by_cases h : b = "" <;> simp [h]

theorem mergeInt_idem (a b : Int) : mergeInt (mergeInt a b) b = mergeInt a b := by
  unfold mergeInt
  by_cases h : b = 0 <;> simp [h]

/-- C6: for every fluent-forwarder raw config whose metrics sub-spec is present with
Prometheus annotations requested, and whose own pod-template annotations use none of
the three `prometheus.io` keys, the pod-template annotations of the effective spec
are the user's annotations plus `prometheus.io/scrape` = "true", `prometheus.io/path`
= the effective metrics path and `prometheus.io/port` = the effective metrics port in
decimal: each key reads as stated, every other key reads as in the user's mapping. -/
theorem prometheus_annotations_synthesis (logging : Logging) (userDefined : NodeAgentConfig)
    (us : NodeAgentFluentbit) (um : Metrics) (hf : userDefined.FluentbitSpec = some us)
    (hs : userDefined.SyslogNGSpec = none) (hm : us.Metrics = some um)
    (hp : um.PrometheusAnnotations = true)
    (hscrape : StrMap.get (podAnnotations us) "prometheus.io/scrape" = none)
    (hpath : StrMap.get (podAnnotations us) "prometheus.io/path" = none)
    (hport : StrMap.get (podAnnotations us) "prometheus.io/port" = none) :
    ∃ spec m, effectiveFluentbit logging userDefined = some spec ∧
      spec.Metrics = some m ∧
      ∀ k, StrMap.get (podAnnotations spec) k
        = (if k = "prometheus.io/scrape" then some "true"
           else if k = "prometheus.io/path" then some m.Path
           else if k = "prometheus.io/port" then some (toString m.Port)
           else StrMap.get (podAnnotations us) k) := by
  have hres : resolvedMetrics userDefined
      = some (Metrics.merge metricsDefault um) := by
    simp [resolvedMetrics, userFluentbitSpec, hf, hm]
  have hann : resolvedAnnotations userDefined
      = mergeMap [] (defaultPrometheusAnnotations
          (Metrics.merge metricsDefault um)).Annotations := by
    simp [resolvedAnnotations, hres, userFluentbitSpec, hf, hm, hp]
  have hmet : (overlaidSpec logging userDefined).Metrics = resolvedMetrics userDefined := by
    by_cases hw : userDefined.Profile = "windows" <;>
      simp [overlaidSpec, hw, NodeAgentFluentbit.merge, mergePtr, userFluentbitSpec,
        NodeAgentFluentbitWindowsDefaults, fluentbitDefaultsSpec]
  have hpod : podAnnotations (overlaidSpec logging userDefined)
      = resolvedAnnotations userDefined := by
    by_cases hw : userDefined.Profile = "windows" <;>
      simp [overlaidSpec, hw, NodeAgentFluentbit.merge, mergePtr, userFluentbitSpec,
        NodeAgentFluentbitWindowsDefaults, fluentbitDefaultsSpec, podAnnotations,
        DaemonSet.merge, PodTemplateSpec.merge, ObjectMeta.merge, mergeMap]
  refine ⟨NodeAgentFluentbit.merge (overlaidSpec logging userDefined) us,
    Metrics.merge (Metrics.merge metricsDefault um) um, ?_, ?_, ?_⟩
  · simp [effectiveFluentbit, processAgentConfig_fluentbit logging userDefined us hf hs]
  · simp [NodeAgentFluentbit.merge, hmet, hres, hm, mergePtr]
  · intro k
    have hfinal : StrMap.get (podAnnotations
          (NodeAgentFluentbit.merge (overlaidSpec logging userDefined) us)) k
        = match StrMap.get (podAnnotations us) k with
          | some v => some v
          | none => StrMap.get (resolvedAnnotations userDefined) k := by
      rw [← hpod]
      rcases hd : us.DaemonSetOverrides with _ | ds <;>
        rcases hod : (overlaidSpec logging userDefined).DaemonSetOverrides with _ | ods <;>
        simp [podAnnotations, NodeAgentFluentbit.merge, mergePtr, hd, hod, StrMap.get,
          DaemonSet.merge, PodTemplateSpec.merge, ObjectMeta.merge, StrMap.get_mergeMap]
      rcases StrMap.get ds.Spec.Template.ObjectMeta.Annotations k with _ | v <;> rfl
    rw [hfinal, hann]
    simp only [StrMap.get_mergeMap, defaultPrometheusAnnotations, StrMap.get, Metrics.merge,
      mergeString_idem, mergeInt_idem]
    by_cases h1 : k = "prometheus.io/scrape"
    · subst h1
      simp [hscrape]
    · by_cases h2 : k = "prometheus.io/path"
      · subst h2
        simp [hpath]
      · by_cases h3 : k = "prometheus.io/port"
        · subst h3
          simp [hport]
        · have h1' : ¬ "prometheus.io/scrape" = k := fun e => h1 e.symm
          have h2' : ¬ "prometheus.io/path" = k := fun e => h2 e.symm
          have h3' : ¬ "prometheus.io/port" = k := fun e => h3 e.symm
          simp only [h1, h2, h3, h1', h2', h3', if_false]
          rcases StrMap.get (podAnnotations us) k with _ | v <;> rfl

/-- Witness of C6: the scrape example of the spec, path `/metrics` and port 9100, next
to a user annotation `team`. -/
theorem prometheus_annotations_synthesis_witness :
    ∃ spec, effectiveFluentbit sampleLogging sampleScrapeConfig = some spec ∧
      StrMap.get (podAnnotations spec) "prometheus.io/scrape" = some "true" ∧
      StrMap.get (podAnnotations spec) "prometheus.io/path" = some "/metrics" ∧
      StrMap.get (podAnnotations spec) "prometheus.io/port" = some "9100" ∧
      StrMap.get (podAnnotations spec) "team" = some "logging" := by
  obtain ⟨spec, m, h, hm, hk⟩ :=
    prometheus_annotations_synthesis sampleLogging sampleScrapeConfig sampleScrapeSpec
      sampleMetrics rfl rfl rfl rfl (by decide) (by decide) (by decide)
  have hspec : spec.Metrics = some (Metrics.merge metricsDefault sampleMetrics) := by
    have h' : effectiveFluentbit sampleLogging sampleScrapeConfig = some spec := h
    rw [show effectiveFluentbit sampleLogging sampleScrapeConfig
        = some (NodeAgentFluentbit.merge (overlaidSpec sampleLogging sampleScrapeConfig)
            sampleScrapeSpec) from by
          simp [effectiveFluentbit,
            processAgentConfig_fluentbit sampleLogging sampleScrapeConfig sampleScrapeSpec
              rfl rfl]] at h'
    cases h'
    decide
  rw [hspec] at hm
  cases hm
  refine ⟨spec, h, ?_, ?_, ?_, ?_⟩
  · rw [hk]
    decide
  · rw [hk]
    decide
  · rw [hk]
    decide
  · rw [hk]
    decide

/-- C7, as stated, fails: a windows agent whose user sets the Kubernetes-API URL keeps
the user's URL in the effective spec, not the URL templated from the cluster domain. -/
theorem kube_url_of_user_kept_on_windows :
    Option.map (fun spec => spec.FilterKubernetes.KubeURL)
        (effectiveFluentbit sampleLogging sampleKubeURLConfig)
      = some "https://10.0.0.1:6443" ∧
    "https://10.0.0.1:6443"
      ≠ "https://kubernetes.default.svc" ++ sampleLogging.ClusterDomainAsSuffix ++ ":443" := by
  constructor
  · rw [show effectiveFluentbit sampleLogging sampleKubeURLConfig
        = some (NodeAgentFluentbit.merge (overlaidSpec sampleLogging sampleKubeURLConfig)
            sampleKubeURLSpec) from by
          simp [effectiveFluentbit,
            processAgentConfig_fluentbit sampleLogging sampleKubeURLConfig sampleKubeURLSpec
              rfl rfl]]
    rfl
  · decide

/-- C7, amended: for every fluent-forwarder raw config with profile "windows" and
every cluster-domain suffix `s`, the Kubernetes-API URL of the effective spec is
"https://kubernetes.default.svc" followed by `s` and ":443" when the user leaves that
URL unset, and the user's URL when the user sets one. -/
theorem windows_kube_url_templated_unless_set (logging : Logging) (userDefined : NodeAgentConfig)
    (us : NodeAgentFluentbit) (hf : userDefined.FluentbitSpec = some us)
    (hs : userDefined.SyslogNGSpec = none) (hw : userDefined.Profile = "windows") :
    ∃ spec, effectiveFluentbit logging userDefined = some spec ∧
      spec.FilterKubernetes.KubeURL
        = (if us.FilterKubernetes.KubeURL = "" then
             "https://kubernetes.default.svc" ++ logging.ClusterDomainAsSuffix ++ ":443"
           else us.FilterKubernetes.KubeURL) := by
  refine ⟨NodeAgentFluentbit.merge (overlaidSpec logging userDefined) us, ?_, ?_⟩
  · simp [effectiveFluentbit, processAgentConfig_fluentbit logging userDefined us hf hs]
  · simp [NodeAgentFluentbit.merge, overlaidSpec, hw, FilterKubernetes.merge, mergeString]

/-- Witness of amended C7: a windows agent with no URL of its own in a cluster with
domain suffix ".cluster.local". -/
theorem windows_kube_url_templated_unless_set_witness :
    ∃ spec, effectiveFluentbit sampleLogging sampleWindowsConfig = some spec ∧
      spec.FilterKubernetes.KubeURL = "https://kubernetes.default.svc.cluster.local:443" := by
  obtain ⟨spec, h, h1⟩ :=
    windows_kube_url_templated_unless_set sampleLogging sampleWindowsConfig sampleWindowsSpec rfl rfl rfl
  refine ⟨spec, h, ?_⟩
  rw [h1]
  decide

/-- C8: for every raw agent config with profile "windows" and every two fleet
contexts (in particular two cluster-domain suffixes), lines 453 to 489 of
`processAgent` end the same way, and the two effective specs agree on every field
other than the Kubernetes-API URL; for a fluent-forwarder config both specs exist. -/
theorem windows_cluster_domain_only_changes_kube_url (logging1 logging2 : Logging)
    (userDefined : NodeAgentConfig) (hw : userDefined.Profile = "windows") :
    Except.map withoutKubeURL (processAgentConfig logging1 userDefined)
        = Except.map withoutKubeURL (processAgentConfig logging2 userDefined) ∧
      (userDefined.FluentbitSpec ≠ none → userDefined.SyslogNGSpec = none →
        ∃ eff1 eff2, processAgentConfig logging1 userDefined = .ok eff1 ∧
          processAgentConfig logging2 userDefined = .ok eff2 ∧
          withoutKubeURL eff1 = withoutKubeURL eff2) := by
  have hfluent : ∀ us, userDefined.FluentbitSpec = some us → userDefined.SyslogNGSpec = none →
      withoutKubeURL
          { Profile := userDefined.Profile
            Metadata := { Labels := mergeMap [] userDefined.Metadata.Labels }
            FluentbitSpec :=
              some (NodeAgentFluentbit.merge (overlaidSpec logging1 userDefined) us)
            SyslogNGSpec := none }
        = withoutKubeURL
          { Profile := userDefined.Profile
            Metadata := { Labels := mergeMap [] userDefined.Metadata.Labels }
            FluentbitSpec :=
              some (NodeAgentFluentbit.merge (overlaidSpec logging2 userDefined) us)
            SyslogNGSpec := none } := by
    intro us _ _
    simp [withoutKubeURL, NodeAgentFluentbit.merge, overlaidSpec, hw, FilterKubernetes.merge]
  constructor
  · rcases hf : userDefined.FluentbitSpec with _ | us <;>
      rcases hs : userDefined.SyslogNGSpec with _ | ss
    · simp [processAgentConfig, hf, hs]
    · simp [processAgentConfig, hf, hs]
    · rw [processAgentConfig_fluentbit logging1 userDefined us hf hs,
        processAgentConfig_fluentbit logging2 userDefined us hf hs]
      simp only [Except.map]
      rw [hfluent us hf hs]
    · simp [processAgentConfig, hf, hs, throw, throwThe, MonadExceptOf.throw, bind,
        Except.bind]
  · intro hf hs
    rcases hf' : userDefined.FluentbitSpec with _ | us
    · exact absurd hf' hf
    · exact ⟨_, _, processAgentConfig_fluentbit logging1 userDefined us hf' hs,
        processAgentConfig_fluentbit logging2 userDefined us hf' hs, hfluent us hf' hs⟩

/-- Witness of C8: the same windows agent in two clusters with different domains. -/
theorem windows_cluster_domain_only_changes_kube_url_witness :
    Except.map withoutKubeURL (processAgentConfig sampleLogging sampleWindowsConfig)
      = Except.map withoutKubeURL
          (processAgentConfig { Name := "myfleet", ClusterDomainAsSuffix := ".example.org" }
            sampleWindowsConfig) :=
  (windows_cluster_domain_only_changes_kube_url sampleLogging
    { Name := "myfleet", ClusterDomainAsSuffix := ".example.org" } sampleWindowsConfig rfl).1

/-! ## The fleet loop -/

/-- The factory walk makes no `processAgent` call. -/
theorem agentCalls_reconcileResources {σ : Type} (rr : ReconcileResource σ)
    (fs : List (Resource σ)) (w : σ) : agentCalls (reconcileResources rr fs w).trace = [] := by
  induction fs generalizing w with
  | nil => rfl
  | cons f rest ih =>
    rw [reconcileResources]
    rcases f.call w with ⟨out, w'⟩
    simp only
    rcases out.err with _ | e
    · rcases ho : out.object with _ | o
      · rfl
      · simp only
        rcases rr o out.state w' with ⟨⟨_ | res, _ | er⟩, w2⟩
        · simp [Run.after, agentCalls, ih]
        · rfl
        · rfl
        · rfl
    · rfl

/-- The factory walk never faults. -/
theorem reconcileResources_no_crash {σ : Type} (rr : ReconcileResource σ)
    (fs : List (Resource σ)) (w : σ) (what : String) :
    (reconcileResources rr fs w).outcome ≠ .error (.crash what) := by
  induction fs generalizing w with
  | nil => simp [reconcileResources]
  | cons f rest ih =>
    rw [reconcileResources]
    rcases f.call w with ⟨out, w'⟩
    simp only
    rcases out.err with _ | e
    · rcases ho : out.object with _ | o
      · simp
      · simp only
        rcases rr o out.state w' with ⟨⟨_ | res, _ | er⟩, w2⟩
        · simpa [Run.after] using ih w2
        · simp
        · simp
        · simp
    · simp

/-- Apart from a fault while building an effective spec, the fleet loop calls
`processAgent` exactly once for every entry of the agents map, in iteration order,
and returns the combined result. -/
theorem reconcileAgents_calls_every_agent {σ : Type} (F : ResourceFactories σ)
    (rr : ReconcileResource σ) (logging : Logging) (agents : List (String × NodeAgentConfig))
    (c : CombinedResult) (w : σ)
    (hno : ∀ entry ∈ agents, ∀ what,
      processAgentConfig logging entry.2 ≠ .error (.crash what)) :
    (∃ c', (reconcileAgents F rr logging agents c w).outcome = .ok c') ∧
      agentCalls (reconcileAgents F rr logging agents c w).trace
        = agents.map (fun entry => entry.1) := by
  induction agents generalizing c w with
  | nil => exact ⟨⟨c, rfl⟩, rfl⟩
  | cons entry rest ih =>
    obtain ⟨name, cfg⟩ := entry
    have hrest : ∀ entry ∈ rest, ∀ what,
        processAgentConfig logging entry.2 ≠ .error (.crash what) :=
      fun e he => hno e (List.mem_cons_of_mem _ he)
    have hhere : ∀ what, processAgentConfig logging cfg ≠ .error (.crash what) :=
      hno (name, cfg) (List.mem_cons_self _ _)
    have htrace : agentCalls (processAgent F rr logging name cfg w).trace = [name] := by
      unfold processAgent
      rcases processAgentConfig logging cfg with fault | eff
      · rfl
      · simp [Run.after, agentCalls, nodeAgentInstance.Reconcile, agentCalls_reconcileResources]
    have hcrash : ∀ what, (processAgent F rr logging name cfg w).outcome
        ≠ .error (.crash what) := by
      intro what
      unfold processAgent
      rcases hcfg : processAgentConfig logging cfg with fault | eff
      · simp only
        intro h
        injection h with h
        exact hhere what (by rw [hcfg, h])
      · simpa [Run.after, nodeAgentInstance.Reconcile] using
          reconcileResources_no_crash rr _ w what
    rw [reconcileAgents]
    rcases hout : (processAgent F rr logging name cfg w).outcome with (err | what) | result
    · obtain ⟨h1, h2⟩ := ih (c.Combine none (some err))
        (processAgent F rr logging name cfg w).world hrest
      simp only [hout]
      exact ⟨by simpa [Run.after] using h1,
        by simp [Run.after, agentCalls_append, htrace, h2]⟩
    · exact absurd hout (hcrash what)
    · obtain ⟨h1, h2⟩ := ih (c.Combine result none)
        (processAgent F rr logging name cfg w).world hrest
      simp only [hout]
      exact ⟨by simpa [Run.after] using h1,
        by simp [Run.after, agentCalls_append, htrace, h2]⟩

/-- A conflicting instance does not block a valid one: with one instance that has both
variants set, iterated first, and one fluent-forwarder instance, `Reconciler.Reconcile`
calls `processAgent` for both, walks all ten factories of the valid instance, and
returns the conflict error of the first instance. -/
theorem Reconcile_conflict_does_not_block :
    (Reconciler.Reconcile sampleFactories (sampleReconciler "" "")
        sampleFleetConflictFirst 0).outcome
      = .ok ({}, some (.msg
          "only one agent implementation can be specified for a single nodeAgent")) ∧
    agentCalls (Reconciler.Reconcile sampleFactories (sampleReconciler "" "")
        sampleFleetConflictFirst 0).trace = ["both", "fluentbit"] ∧
    reconcileCalls (Reconciler.Reconcile sampleFactories (sampleReconciler "" "")
        sampleFleetConflictFirst 0).trace = 10 := by
  refine ⟨?_, ?_, ?_⟩ <;> rfl

/-- C3 at its failing input: with a syslog agent that has a metrics sub-spec and a
fluent-forwarder agent in the agents map, `Reconciler.Reconcile` faults on the nil
metrics pointer and returns no combined result; when the syslog agent is iterated
first, `processAgent` is never called for the fluent-forwarder agent and no factory
runs, and when it is iterated last the combined result of the first agent is lost. -/
theorem Reconcile_unwinds_on_syslog_metrics :
    (Reconciler.Reconcile sampleFactories (sampleReconciler "" "")
        sampleFleetSyslogFirst 0).outcome
      = .error (.crash "invalid memory address or nil pointer dereference") ∧
    agentCalls (Reconciler.Reconcile sampleFactories (sampleReconciler "" "")
        sampleFleetSyslogFirst 0).trace = ["syslog"] ∧
    factoryCalls (Reconciler.Reconcile sampleFactories (sampleReconciler "" "")
        sampleFleetSyslogFirst 0).trace = [] ∧
    (Reconciler.Reconcile sampleFactories (sampleReconciler "" "")
        sampleFleetSyslogLast 0).outcome
      = .error (.crash "invalid memory address or nil pointer dereference") ∧
    agentCalls (Reconciler.Reconcile sampleFactories (sampleReconciler "" "")
        sampleFleetSyslogLast 0).trace = ["fluentbit", "syslog"] := by
  refine ⟨?_, ?_, ?_, ?_, ?_⟩ <;> rfl

/-! ## Names, labels and the service account -/

/-- C11: for every fleet name `f`, instance name `i` and short name `s`, and whatever
the other fields of the instance hold, `QualifiedName s` on the instance `(f, i)` is
`f ++ "-" ++ i ++ "-" ++ s` and `AggregatorQualifiedName s` is `f ++ "-" ++ s`; so two
instances with the same identity give the identical string.  For fleet "myfleet",
instance "agentA" and short name "secret" the name is "myfleet-agentA-secret". -/
theorem qualified_names (f i s d1 d2 : String) (cfg1 cfg2 : NodeAgentConfig) :
    nodeAgentInstance.QualifiedName
        { name := i, nodeAgent := cfg1, logging := { Name := f, ClusterDomainAsSuffix := d1 } } s
      = f ++ "-" ++ i ++ "-" ++ s ∧
    nodeAgentInstance.AggregatorQualifiedName
        { name := i, nodeAgent := cfg1, logging := { Name := f, ClusterDomainAsSuffix := d1 } } s
      = f ++ "-" ++ s ∧
    nodeAgentInstance.QualifiedName
        { name := i, nodeAgent := cfg1, logging := { Name := f, ClusterDomainAsSuffix := d1 } } s
      = nodeAgentInstance.QualifiedName
        { name := i, nodeAgent := cfg2, logging := { Name := f, ClusterDomainAsSuffix := d2 } } s ∧
    nodeAgentInstance.AggregatorQualifiedName
        { name := i, nodeAgent := cfg1, logging := { Name := f, ClusterDomainAsSuffix := d1 } } s
      = nodeAgentInstance.AggregatorQualifiedName
        { name := i, nodeAgent := cfg2, logging := { Name := f, ClusterDomainAsSuffix := d2 } } s ∧
    nodeAgentInstance.QualifiedName (fleetInstance "agentA" cfg1) "secret"
      = "myfleet-agentA-secret" := by
  refine ⟨rfl, rfl, rfl, rfl, ?_⟩
  simp only [nodeAgentInstance.QualifiedName, fleetInstance]
  decide

/-- C19: `QualifiedName` is not injective in the pair of instance name and short name:
in the fleet "myfleet" the instance "a-b" with short name "c" and the instance "a" with
short name "b-c" are different pairs with the same qualified name. -/
theorem qualified_name_collision :
    nodeAgentInstance.QualifiedName (fleetInstance "a-b" {}) "c"
      = nodeAgentInstance.QualifiedName (fleetInstance "a" {}) "b-c" ∧
    ("a-b", "c") ≠ ("a", "b-c") ∧
    nodeAgentInstance.QualifiedName (fleetInstance "a-b" {}) "c" = "myfleet-a-b-c" := by
  refine ⟨?_, ?_, ?_⟩ <;> decide

/-- Reading the labels that `MergeLabels` makes of the user labels, the variant pair
and the managed-by label. -/
theorem get_merged_labels (user : StrMap) (variant inst fleet k : String) :
    StrMap.get (MergeLabels
        [ user,
          [("app.kubernetes.io/name", variant), ("app.kubernetes.io/instance", inst)],
          generateLoggingRefLabels fleet ]) k
      = (if k = "app.kubernetes.io/managed-by" then some fleet
         else if k = "app.kubernetes.io/instance" then some inst
         else if k = "app.kubernetes.io/name" then some variant
         else StrMap.get user k) := by
  simp only [MergeLabels, List.foldl, StrMap.get_mergeMap, generateLoggingRefLabels, StrMap.get]
  by_cases h1 : k = "app.kubernetes.io/managed-by"
  · subst h1
    simp
  · by_cases h2 : k = "app.kubernetes.io/instance"
    · subst h2
      simp
    · by_cases h3 : k = "app.kubernetes.io/name"
      · subst h3
        simp
      · have h1' : ¬ "app.kubernetes.io/managed-by" = k := fun e => h1 e.symm
        have h2' : ¬ "app.kubernetes.io/instance" = k := fun e => h2 e.symm
        have h3' : ¬ "app.kubernetes.io/name" = k := fun e => h3 e.symm
        simp only [h1, h2, h3, h1', h2', h3', if_false]
        rcases StrMap.get user k with _ | v <;> rfl

/-- C12: for every agent instance whose effective spec has a variant set,
`getNodeAgentLabels` returns a map in which `app.kubernetes.io/managed-by` is the name
of the owning logging resource, `app.kubernetes.io/instance` is the instance name and
`app.kubernetes.io/name` is the variant name ("fluentbit", or "syslog-ng" when only
the syslog variant is set), also when the user declares one of these keys; every
other key reads as in the user-declared metadata labels, so no further key is
present. -/
theorem node_agent_labels (n : nodeAgentInstance)
    (hv : n.nodeAgent.FluentbitSpec ≠ none ∨ n.nodeAgent.SyslogNGSpec ≠ none) :
    ∃ labels, n.getNodeAgentLabels = some labels ∧
      ∀ k, StrMap.get labels k
        = (if k = "app.kubernetes.io/managed-by" then some n.logging.Name
           else if k = "app.kubernetes.io/instance" then some n.name
           else if k = "app.kubernetes.io/name" then
             some (if n.nodeAgent.FluentbitSpec ≠ none then "fluentbit" else "syslog-ng")
           else StrMap.get n.nodeAgent.Metadata.Labels k) := by
  by_cases hf : n.nodeAgent.FluentbitSpec = none
  · have hs : n.nodeAgent.SyslogNGSpec ≠ none := by
      rcases hv with h | h
      · exact absurd hf h
      · exact h
    refine ⟨MergeLabels
      [ n.nodeAgent.Metadata.Labels,
        [("app.kubernetes.io/name", "syslog-ng"), ("app.kubernetes.io/instance", n.name)],
        generateLoggingRefLabels n.logging.Name ], ?_, ?_⟩
    · simp [nodeAgentInstance.getNodeAgentLabels, hf, hs]
    · intro k
      rw [get_merged_labels]
      simp [hf]
  · refine ⟨MergeLabels
      [ n.nodeAgent.Metadata.Labels,
        [("app.kubernetes.io/name", "fluentbit"), ("app.kubernetes.io/instance", n.name)],
        generateLoggingRefLabels n.logging.Name ], ?_, ?_⟩
    · simp [nodeAgentInstance.getNodeAgentLabels, hf]
    · intro k
      rw [get_merged_labels]
      simp [hf]

/-- Witness of C12: a fluent-forwarder instance whose user declares the label `team`
and, under the operator's key `app.kubernetes.io/name`, a value of their own. -/
theorem node_agent_labels_witness :
    ∃ labels, (fleetInstance "agentA" sampleLabelledConfig).getNodeAgentLabels = some labels ∧
      StrMap.get labels "app.kubernetes.io/name" = some "fluentbit" ∧
      StrMap.get labels "app.kubernetes.io/instance" = some "agentA" ∧
      StrMap.get labels "app.kubernetes.io/managed-by" = some "myfleet" ∧
      StrMap.get labels "team" = some "logging" ∧
      StrMap.get labels "other" = none := by
  obtain ⟨labels, h, hk⟩ :=
    node_agent_labels (fleetInstance "agentA" sampleLabelledConfig) (Or.inl (by decide))
  refine ⟨labels, h, ?_, ?_, ?_, ?_, ?_⟩ <;> rw [hk] <;> decide

/-- C18: for every agent instance `getServiceAccount` returns
* the service-account name of the fluent-forwarder security sub-spec when that variant
  is set, the sub-spec is present and the name is non-empty, whatever the syslog
  variant holds;
* `QualifiedName "fluentbit"` when the fluent-forwarder variant is set and its security
  sub-spec is absent or names no account, again whatever the syslog variant holds;
* the name of the syslog security sub-spec, or `QualifiedName "syslog-ng"` when that
  sub-spec is absent or names no account, when only the syslog variant is set;
* the empty string when no variant is set. -/
theorem service_account_choice (n : nodeAgentInstance) :
    (∀ fb sec, n.nodeAgent.FluentbitSpec = some fb → fb.Security = some sec →
        sec.ServiceAccount ≠ "" → n.getServiceAccount = sec.ServiceAccount) ∧
    (∀ fb, n.nodeAgent.FluentbitSpec = some fb →
        (fb.Security = none ∨ ∃ sec, fb.Security = some sec ∧ sec.ServiceAccount = "") →
        n.getServiceAccount = n.QualifiedName "fluentbit") ∧
    (∀ sy sec, n.nodeAgent.FluentbitSpec = none → n.nodeAgent.SyslogNGSpec = some sy →
        sy.Security = some sec → sec.ServiceAccount ≠ "" →
        n.getServiceAccount = sec.ServiceAccount) ∧
    (∀ sy, n.nodeAgent.FluentbitSpec = none → n.nodeAgent.SyslogNGSpec = some sy →
        (sy.Security = none ∨ ∃ sec, sy.Security = some sec ∧ sec.ServiceAccount = "") →
        n.getServiceAccount = n.QualifiedName "syslog-ng") ∧
    (n.nodeAgent.FluentbitSpec = none → n.nodeAgent.SyslogNGSpec = none →
        n.getServiceAccount = "") := by
  refine ⟨?_, ?_, ?_, ?_, ?_⟩
  · intro fb sec hf hsec hne
    simp [nodeAgentInstance.getServiceAccount, hf, hsec, hne]
  · intro fb hf hsec
    rcases hsec with hsec | ⟨sec, hsec, hempty⟩
    · simp [nodeAgentInstance.getServiceAccount, hf, hsec, serviceAccountNameFluentbit]
    · simp [nodeAgentInstance.getServiceAccount, hf, hsec, hempty, serviceAccountNameFluentbit]
  · intro sy sec hf hs hsec hne
    simp [nodeAgentInstance.getServiceAccount, hf, hs, hsec, hne]
  · intro sy hf hs hsec
    rcases hsec with hsec | ⟨sec, hsec, hempty⟩
    · simp [nodeAgentInstance.getServiceAccount, hf, hs, hsec, serviceAccountNameSyslogNG]
    · simp [nodeAgentInstance.getServiceAccount, hf, hs, hsec, hempty,
        serviceAccountNameSyslogNG]
  · intro hf hs
    simp [nodeAgentInstance.getServiceAccount, hf, hs]

/-- Witness of C18: a user-named account; a fluent-forwarder instance without security
sub-spec next to a syslog variant that names an account; an instance without variant. -/
theorem service_account_choice_witness :
    (fleetInstance "agentA" sampleLabelledConfig).getServiceAccount = "custom-sa" ∧
    (fleetInstance "agentA"
        { FluentbitSpec := some {}
          SyslogNGSpec := some { Security := some { ServiceAccount := "syslog-sa" } } }
      ).getServiceAccount = "myfleet-agentA-fluentbit" ∧
    (fleetInstance "agentA" {}).getServiceAccount = "" := by
  refine ⟨?_, ?_, ?_⟩
  · exact (service_account_choice (fleetInstance "agentA" sampleLabelledConfig)).1
      { Security := some { ServiceAccount := "custom-sa" } } { ServiceAccount := "custom-sa" }
      rfl rfl (by decide)
  · rw [(service_account_choice _).2.1 {} rfl (Or.inl rfl)]
    decide
  · exact (service_account_choice (fleetInstance "agentA" {})).2.2.2.2 rfl rfl

/-! ## Metrics, probes and the empty override -/

/-- Whenever the user gives a syslog metrics sub-spec, `NodeAgentSyslogNGDefaults`
faults: it reads the metrics of its own default, which the literal leaves nil. -/
theorem NodeAgentSyslogNGDefaults_faults (userDefined : NodeAgentConfig) (um : Metrics)
    (hm : (userSyslogNGSpec userDefined).Metrics = some um) :
    NodeAgentSyslogNGDefaults userDefined
      = .error (.crash "invalid memory address or nil pointer dereference") := by
  unfold NodeAgentSyslogNGDefaults
  generalize userSyslogNGSpec userDefined = us at hm
  obtain ⟨ds, metrics, sec, cp, vlp, bs⟩ := us
  simp only at hm
  subst hm
  obtain ⟨i, t, po, pa, _ | _⟩ := um <;> rfl

/-- C13 at its failing inputs: for a syslog config with a metrics sub-spec, with or
without scrape annotations requested, `NodeAgentSyslogNGDefaults` faults on the nil
metrics pointer of its default and returns neither a spec nor an error; without a
metrics sub-spec it returns a spec that has no metrics. -/
theorem syslog_defaults_fault_on_metrics :
    NodeAgentSyslogNGDefaults sampleSyslogMetricsConfig
      = .error (.crash "invalid memory address or nil pointer dereference") ∧
    NodeAgentSyslogNGDefaults sampleSyslogScrapeConfig
      = .error (.crash "invalid memory address or nil pointer dereference") ∧
    NodeAgentSyslogNGDefaults sampleSyslogConfig
      = .ok { SyslogNGSpec := some syslogNGProgramDefault } ∧
    syslogNGProgramDefault.Metrics = none := by
  refine ⟨rfl, rfl, rfl, rfl⟩

/-- The profile overlay leaves the resolved metrics as they are. -/
theorem overlaidSpec_Metrics (logging : Logging) (userDefined : NodeAgentConfig) :
    (overlaidSpec logging userDefined).Metrics = resolvedMetrics userDefined := by
  by_cases hw : userDefined.Profile = "windows" <;>
    simp [overlaidSpec, hw, NodeAgentFluentbit.merge, mergePtr, userFluentbitSpec,
      NodeAgentFluentbitWindowsDefaults, fluentbitDefaultsSpec]

/-- C14: for every fluent-forwarder raw config whose metrics sub-spec is present, the
effective spec has a metrics sub-spec, and each of interval, timeout, port and path
equals the user's value when the user set it to a non-zero value and otherwise the
default: "15s", "5s", 2020 and "/api/v1/metrics/prometheus". -/
theorem metrics_defaults_under_user_values (logging : Logging) (userDefined : NodeAgentConfig)
    (us : NodeAgentFluentbit) (um : Metrics) (hf : userDefined.FluentbitSpec = some us)
    (hs : userDefined.SyslogNGSpec = none) (hm : us.Metrics = some um) :
    ∃ spec m, effectiveFluentbit logging userDefined = some spec ∧
      spec.Metrics = some m ∧
      m.Interval = (if um.Interval = "" then "15s" else um.Interval) ∧
      m.Timeout = (if um.Timeout = "" then "5s" else um.Timeout) ∧
      m.Port = (if um.Port = 0 then 2020 else um.Port) ∧
      m.Path = (if um.Path = "" then "/api/v1/metrics/prometheus" else um.Path) := by
  refine ⟨NodeAgentFluentbit.merge (overlaidSpec logging userDefined) us,
    Metrics.merge (Metrics.merge metricsDefault um) um, ?_, ?_, ?_, ?_, ?_, ?_⟩
  · simp [effectiveFluentbit, processAgentConfig_fluentbit logging userDefined us hf hs]
  · simp [NodeAgentFluentbit.merge, overlaidSpec_Metrics, resolvedMetrics, userFluentbitSpec,
      hf, hm, mergePtr]
  · simp only [Metrics.merge, mergeString, metricsDefault]
    by_cases h : um.Interval = "" <;> simp [h]
  · simp only [Metrics.merge, mergeString, metricsDefault]
    by_cases h : um.Timeout = "" <;> simp [h]
  · simp only [Metrics.merge, mergeInt, metricsDefault]
    by_cases h : um.Port = 0 <;> simp [h]
  · simp only [Metrics.merge, mergeString, metricsDefault]
    by_cases h : um.Path = "" <;> simp [h]

/-- Witness of C14: the user sets path and port and leaves interval and timeout unset. -/
theorem metrics_defaults_under_user_values_witness :
    ∃ spec m, effectiveFluentbit sampleLogging sampleScrapeConfig = some spec ∧
      spec.Metrics = some m ∧
      m.Interval = "15s" ∧ m.Timeout = "5s" ∧ m.Port = 9100 ∧ m.Path = "/metrics" := by
  obtain ⟨spec, m, h, hm, h1, h2, h3, h4⟩ :=
    metrics_defaults_under_user_values sampleLogging sampleScrapeConfig sampleScrapeSpec
      sampleMetrics rfl rfl rfl
  refine ⟨spec, m, h, hm, ?_, ?_, ?_, ?_⟩
  · rw [h1]
    decide
  · rw [h2]
    decide
  · rw [h3]
    decide
  · rw [h4]
    decide

/-- C17: for every fluent-forwarder raw config with no metrics sub-spec,
`NodeAgentFluentbitDefaults` returns a spec; when the liveness-default-check flag is
unset or true and the profile is not "windows", its metrics are port 2020 and path "/"
with empty interval and timeout, its only container is the baseline container with the
liveness probe HTTP GET "/" on port 2020 (delay 10, period 10, failure threshold 3),
and its pod-template annotations are empty; when the flag is false or the profile is
"windows", it has no metrics and its container has no liveness probe. -/
theorem liveness_check_metrics (userDefined : NodeAgentConfig) (us : NodeAgentFluentbit)
    (hf : userDefined.FluentbitSpec = some us) (hm : us.Metrics = none) :
    ∃ spec, NodeAgentFluentbitDefaults userDefined = .ok { FluentbitSpec := some spec } ∧
      ((us.LivenessDefaultCheck = none ∨ us.LivenessDefaultCheck = some true) →
        userDefined.Profile ≠ "windows" →
        spec.Metrics = some { Interval := "", Timeout := "", Port := 2020, Path := "/" } ∧
        podContainers spec
          = [{ fluentbitBaselineContainer with LivenessProbe := some livenessCheckProbe }] ∧
        podAnnotations spec = []) ∧
      ((us.LivenessDefaultCheck = some false ∨ userDefined.Profile = "windows") →
        spec.Metrics = none ∧
        podContainers spec = [fluentbitBaselineContainer] ∧
        fluentbitBaselineContainer.LivenessProbe = none ∧
        podAnnotations spec = []) := by
  refine ⟨fluentbitDefaultsSpec userDefined, NodeAgentFluentbitDefaults_eq userDefined, ?_, ?_⟩
  · intro hl hp
    have hres : resolvedMetrics userDefined = some { Port := 2020, Path := "/" } := by
      simp [resolvedMetrics, userFluentbitSpec, hf, hm, hl, hp]
    refine ⟨?_, ?_, ?_⟩
    · simp [fluentbitDefaultsSpec, hres]
    · simp only [podContainers, fluentbitDefaultsSpec, resolvedLivenessProbe, hres]
      rfl
    · simp [podAnnotations, fluentbitDefaultsSpec, resolvedAnnotations, userFluentbitSpec,
        hf, hm]
  · intro hl
    have hres : resolvedMetrics userDefined = none := by
      rcases hl with hl | hl
      · simp [resolvedMetrics, userFluentbitSpec, hf, hm, hl]
      · simp [resolvedMetrics, userFluentbitSpec, hf, hm, hl]
    refine ⟨?_, ?_, rfl, ?_⟩
    · simp [fluentbitDefaultsSpec, hres]
    · simp only [podContainers, fluentbitDefaultsSpec, resolvedLivenessProbe, hres]
      rfl
    · simp [podAnnotations, fluentbitDefaultsSpec, resolvedAnnotations, userFluentbitSpec,
        hf, hm]

/-- Witness of C17: the fluent-forwarder agent with every field left to the defaults. -/
theorem liveness_check_metrics_witness :
    ∃ spec, NodeAgentFluentbitDefaults sampleFluentbitConfig
        = .ok { FluentbitSpec := some spec } ∧
      spec.Metrics = some { Interval := "", Timeout := "", Port := 2020, Path := "/" } ∧
      podAnnotations spec = [] := by
  obtain ⟨spec, h, h1, _⟩ := liveness_check_metrics sampleFluentbitConfig {} rfl rfl
  obtain ⟨hmet, _, hann⟩ := h1 (Or.inl rfl) (by decide)
  exact ⟨spec, h, hmet, hann⟩

theorem mergePtr_none {α : Type} (f : α → α → α) (b : Option α) : mergePtr f b none = b := by
  cases b <;> rfl

/-- C16: for every effective spec `e` that `processAgent` builds from a raw config,
merging `e` with the empty override (no field set) succeeds and yields `e`; the same
holds one level down, for the fluent-forwarder part of `e` and an empty sub-spec. -/
theorem merge_with_empty_override (logging : Logging) (userDefined e : NodeAgentConfig)
    (h : processAgentConfig logging userDefined = .ok e) :
    Merge NodeAgentConfig.merge (some e) {} = .ok e ∧
      ∀ spec, e.FluentbitSpec = some spec →
        Merge NodeAgentConfig.merge (some e) { FluentbitSpec := some {} } = .ok e ∧
        NodeAgentFluentbit.merge spec {} = spec := by
  have hdeep : ∀ spec : NodeAgentFluentbit, NodeAgentFluentbit.merge spec {} = spec := by
    intro spec
    obtain ⟨ds, fl, gr, ll, css, metrics, sec, cp, vlp, ⟨itp, itr, its, itdb, itm, itt⟩, aws,
      ⟨ku, kc, kt, kp⟩, ⟨sp⟩, ldc, fo⟩ := spec
    simp [NodeAgentFluentbit.merge, mergePtr_none, mergeScalarPtr, mergeString, mergeInt,
      InputTail.merge, FilterKubernetes.merge, BufferStorage.merge]
  obtain ⟨pr, ⟨labels⟩, fb, sy⟩ := e
  constructor
  · simp [Merge, NodeAgentConfig.merge, mergePtr_none, mergeString, mergeMap]
  · intro spec hspec
    simp only at hspec
    subst hspec
    refine ⟨?_, hdeep spec⟩
    simp [Merge, NodeAgentConfig.merge, mergePtr_none, mergePtr, hdeep, mergeString, mergeMap]

/-- Witness of C16: the effective spec of the agent with every field left to the defaults. -/
theorem merge_with_empty_override_witness :
    ∃ e, processAgentConfig sampleLogging sampleFluentbitConfig = .ok e ∧
      Merge NodeAgentConfig.merge (some e) {} = .ok e :=
  ⟨_, processAgentConfig_fluentbit sampleLogging sampleFluentbitConfig {} rfl rfl,
    (merge_with_empty_override sampleLogging sampleFluentbitConfig _
      (processAgentConfig_fluentbit sampleLogging sampleFluentbitConfig {} rfl rfl)).1⟩

/-! ## The container merge -/

theorem Container.merge_empty (c : Container) : Container.merge c {} = c := by
  obtain ⟨n, i, cmd, args, ipp, ⟨lim, req⟩, lp⟩ := c
  simp [Container.merge, mergeString, mergeSeq, mergeMap, mergePtr_none]

/-- Merging a container into one of the same name keeps the name. -/
theorem Container.merge_name (b o : Container) (h : b.Name = o.Name) :
    (Container.merge b o).Name = o.Name := by
  simp only [Container.merge, mergeString]
  by_cases ho : o.Name = ""
  · simp [ho, h]
  · simp [ho]

/-- Putting a container of another name into a list without `name` leaves the list
without `name`. -/
theorem upsertContainer_name_ne (name : String) (cs : List Container) (o : Container)
    (hcs : ∀ c ∈ cs, c.Name ≠ name) (ho : o.Name ≠ name) :
    ∀ c ∈ upsertContainer cs o, c.Name ≠ name := by
  induction cs with
  | nil =>
    intro c hc
    simp only [upsertContainer, List.mem_singleton] at hc
    rw [hc]
    exact ho
  | cons d rest ih =>
    intro c hc
    simp only [upsertContainer] at hc
    by_cases hd : d.Name = o.Name
    · simp only [hd, if_true, List.mem_cons] at hc
      rcases hc with hc | hc
      · rw [hc, Container.merge_name d o hd]
        exact ho
      · exact hcs c (List.mem_cons_of_mem _ hc)
    · simp only [hd, if_false, List.mem_cons] at hc
      rcases hc with hc | hc
      · rw [hc]
        exact hcs d (List.mem_cons_self _ _)
      · exact ih (fun c hc => hcs c (List.mem_cons_of_mem _ hc)) c hc

/-- The containers of an override folded into a list headed by the container `x` of
name `name`, the only one of that name: the head becomes `x` with the override
containers of that name merged into it, and stays the only one of that name. -/
theorem foldl_upsertContainer_head (name : String)
    (overrides : List Container) (x : Container) (tail : List Container)
    (hx : x.Name = name) (htail : ∀ c ∈ tail, c.Name ≠ name) :
    ∃ tail', overrides.foldl upsertContainer (x :: tail)
        = (overrides.filter (fun c => c.Name == name)).foldl Container.merge x :: tail' ∧
      (∀ c ∈ tail', c.Name ≠ name) ∧
      ((overrides.filter (fun c => c.Name == name)).foldl Container.merge x).Name = name := by
  induction overrides generalizing x tail with
  | nil => exact ⟨tail, rfl, htail, hx⟩
  | cons o os ih =>
    by_cases ho : o.Name = name
    · have hxo : x.Name = o.Name := by rw [hx, ho]
      have hm : (Container.merge x o).Name = name := by
        rw [Container.merge_name x o hxo, ho]
      have hfil : List.filter (fun c => c.Name == name) (o :: os)
          = o :: List.filter (fun c => c.Name == name) os :=
        List.filter_cons_of_pos (by simpa using ho)
      obtain ⟨tail', h1, h2, h3⟩ := ih (Container.merge x o) tail hm htail
      refine ⟨tail', ?_, h2, ?_⟩
      · simp only [List.foldl, upsertContainer, hxo, if_true]
        rw [h1, hfil]
        rfl
      · rw [hfil]
        exact h3
    · have hxo : ¬ x.Name = o.Name := by
        rw [hx]
        exact fun e => ho e.symm
      have hfil : List.filter (fun c => c.Name == name) (o :: os)
          = List.filter (fun c => c.Name == name) os :=
        List.filter_cons_of_neg (by simpa using ho)
      obtain ⟨tail', h1, h2, h3⟩ := ih x (upsertContainer tail o) hx
        (upsertContainer_name_ne name tail o htail ho)
      refine ⟨tail', ?_, h2, ?_⟩
      · simp only [List.foldl, upsertContainer, hxo, if_false]
        rw [h1, hfil]
      · rw [hfil]
        exact h3

/-- With enough steps `mergeSortedSlice` keeps exactly the containers of both lists. -/
theorem mem_mergeSortedSlice (serverOrder : List Container) (fuel : Nat)
    (left right : List Container) (hfuel : left.length + right.length ≤ fuel) (c : Container) :
    c ∈ mergeSortedSlice serverOrder fuel left right ↔ c ∈ left ∨ c ∈ right := by
  induction fuel generalizing left right with
  | zero =>
    have hl : left = [] := List.length_eq_zero.mp (by omega)
    have hr : right = [] := List.length_eq_zero.mp (by omega)
    subst hl hr
    simp [mergeSortedSlice]
  | succ n ih =>
    rcases left with _ | ⟨l, ls⟩
    · simp [mergeSortedSlice]
    · rcases right with _ | ⟨r, rs⟩
      · simp [mergeSortedSlice]
      · simp only [mergeSortedSlice]
        simp only [List.length_cons] at hfuel
        by_cases hb : standsBefore serverOrder l r = true
        · rw [if_pos hb, List.mem_cons,
            ih ls (r :: rs) (by simp only [List.length_cons]; omega)]
          simp only [List.mem_cons]
          tauto
        · rw [if_neg hb, List.mem_cons,
            ih (l :: ls) rs (by simp only [List.length_cons]; omega)]
          simp only [List.mem_cons]
          tauto

/-- The first hit of a search is `x` when `x` is in the list and is the only element
that the search accepts. -/
theorem find?_eq_of_unique {α : Type} (p : α → Bool) (l : List α) (x : α)
    (hmem : x ∈ l) (hx : p x = true) (huniq : ∀ c ∈ l, p c = true → c = x) :
    l.find? p = some x := by
  induction l with
  | nil => simp at hmem
  | cons a rest ih =>
    by_cases ha : p a = true
    · have hax : a = x := huniq a (List.mem_cons_self _ _) ha
      subst hax
      simp [List.find?, ha]
    · have hne : x ≠ a := fun e => ha (e ▸ hx)
      have hrest : x ∈ rest := by
        rcases List.mem_cons.mp hmem with h | h
        · exact absurd h hne
        · exact h
      have hfalse : p a = false := by simpa using ha
      simp only [List.find?, hfalse]
      exact ih hrest (fun c hc => huniq c (List.mem_cons_of_mem _ hc))

/-- Merging an override into the single base container `x`: the merged list holds
exactly one container of the name of `x`, namely `x` with the override containers of
that name merged into it. -/
theorem mergeContainers_single (x : Container) (overrides : List Container) :
    (overrides.filter (fun c => c.Name == x.Name)).foldl Container.merge x
        ∈ mergeContainers [x] overrides ∧
      ((overrides.filter (fun c => c.Name == x.Name)).foldl Container.merge x).Name = x.Name ∧
      ∀ c ∈ mergeContainers [x] overrides, c.Name = x.Name →
        c = (overrides.filter (fun c => c.Name == x.Name)).foldl Container.merge x := by
  obtain ⟨tail', hfold, htail, hname⟩ :=
    foldl_upsertContainer_head x.Name overrides x [] rfl (by simp)
  generalize hx' : (overrides.filter (fun c => c.Name == x.Name)).foldl Container.merge x = x'
    at hfold hname ⊢
  unfold mergeContainers
  simp only [hfold]
  by_cases hsame : x' :: tail' = [x]
  · rw [if_pos hsame]
    have hxx : x' = x := by
      injection hsame
    subst hxx
    refine ⟨List.mem_singleton.mpr rfl, hname, ?_⟩
    intro c hc _
    exact List.mem_singleton.mp hc
  · rw [if_neg hsame]
    have hmem : ∀ c, c ∈ mergeSortedSlice [x]
          ((List.filter (fun c => !hasContainer overrides c.Name) (x' :: tail')).length +
            (List.filterMap (fun o => List.find? (fun c => c.Name == o.Name) (x' :: tail'))
              overrides).length)
          (List.filter (fun c => !hasContainer overrides c.Name) (x' :: tail'))
          (List.filterMap (fun o => List.find? (fun c => c.Name == o.Name) (x' :: tail'))
            overrides)
        ↔ c ∈ List.filter (fun c => !hasContainer overrides c.Name) (x' :: tail') ∨
          c ∈ List.filterMap (fun o => List.find? (fun c => c.Name == o.Name) (x' :: tail'))
            overrides :=
      fun c => mem_mergeSortedSlice [x] _ _ _ (Nat.le_refl _) c
    refine ⟨?_, hname, ?_⟩
    · rw [hmem]
      by_cases hhas : hasContainer overrides x'.Name = true
      · right
        simp only [hasContainer, List.any_eq_true] at hhas
        obtain ⟨o, ho, hon⟩ := hhas
        refine List.mem_filterMap.mpr ⟨o, ho, ?_⟩
        have hon' : o.Name = x'.Name := by simpa using hon
        simp [List.find?, hon']
      · left
        refine List.mem_filter.mpr ⟨List.mem_cons_self _ _, ?_⟩
        simpa using hhas
    · intro c hc hcn
      rw [hmem] at hc
      have hin : c ∈ x' :: tail' := by
        rcases hc with hc | hc
        · exact (List.mem_filter.mp hc).1
        · obtain ⟨o, _, ho⟩ := List.mem_filterMap.mp hc
          exact List.mem_of_find?_eq_some ho
      rcases List.mem_cons.mp hin with h | h
      · exact h
      · exact absurd hcn (htail c h)

/-- The container of the base name in the list merged from a single base container. -/
theorem findContainer_mergeContainers (x : Container) (overrides : List Container) :
    findContainer (mergeContainers [x] overrides) x.Name
      = some ((overrides.filter (fun c => c.Name == x.Name)).foldl Container.merge x) := by
  obtain ⟨hmem, hname, huniq⟩ := mergeContainers_single x overrides
  refine find?_eq_of_unique _ _ _ hmem (by simpa using hname) ?_
  intro c hc hcn
  exact huniq c hc (by simpa using hcn)

/-- An override without containers leaves the containers as they are. -/
theorem mergeContainers_nil (base : List Container) : mergeContainers base [] = base := by
  simp [mergeContainers]

/-- The merged order starts with the first override container when no base-only
container stands before it. -/
theorem head?_mergeSortedSlice (serverOrder : List Container) (fuel : Nat)
    (left : List Container) (r : Container) (rs : List Container) (hfuel : 0 < fuel)
    (hleft : ∀ l ∈ left, standsBefore serverOrder l r = false) :
    (mergeSortedSlice serverOrder fuel left (r :: rs)).head? = some r := by
  rcases fuel with _ | n
  · omega
  · rcases left with _ | ⟨l, ls⟩
    · simp [mergeSortedSlice]
    · have hl : standsBefore serverOrder l r = false := hleft l (List.mem_cons_self _ _)
      simp [mergeSortedSlice, hl]

/-- When the override list starts with a container of the name of the single base
container, the merged list starts with the merged container of that name. -/
theorem head?_mergeContainers (x u : Container) (rest : List Container)
    (hu : u.Name = x.Name) :
    (mergeContainers [x] (u :: rest)).head?
      = some (((u :: rest).filter (fun c => c.Name == x.Name)).foldl Container.merge x) := by
  obtain ⟨tail', hfold, htail, hname⟩ :=
    foldl_upsertContainer_head x.Name (u :: rest) x [] rfl (by simp)
  generalize hx' : ((u :: rest).filter (fun c => c.Name == x.Name)).foldl Container.merge x = x'
    at hfold hname ⊢
  unfold mergeContainers
  simp only [hfold]
  by_cases hsame : x' :: tail' = [x]
  · rw [if_pos hsame]
    have hxx : x' = x := by
      injection hsame
    rw [hxx]
    rfl
  · rw [if_neg hsame]
    have hfind : List.find? (fun c => c.Name == u.Name) (x' :: tail') = some x' := by
      simp [List.find?, hname, hu]
    have hpatch : List.filterMap
          (fun o => List.find? (fun c => c.Name == o.Name) (x' :: tail')) (u :: rest)
        = x' :: List.filterMap
          (fun o => List.find? (fun c => c.Name == o.Name) (x' :: tail')) rest := by
      simp only [List.filterMap_cons, hfind]
    rw [hpatch]
    apply head?_mergeSortedSlice
    · simp only [List.length_cons]
      omega
    · intro l hl
      have hlname : l.Name ≠ x.Name := by
        intro e
        have hno := (List.mem_filter.mp hl).2
        simp [hasContainer, e, hu] at hno
      have hidx : containerIndex [x] l.Name = none := by
        have hne : ¬ x.Name = l.Name := fun e => hlname e.symm
        simp [containerIndex, hne]
      simp [standsBefore, hidx]

/-- The effective fluent-forwarder spec of a fluent-forwarder config. -/
theorem effectiveFluentbit_eq (logging : Logging) (userDefined : NodeAgentConfig)
    (us : NodeAgentFluentbit) (hf : userDefined.FluentbitSpec = some us)
    (hs : userDefined.SyslogNGSpec = none) :
    effectiveFluentbit logging userDefined
      = some (NodeAgentFluentbit.merge (overlaidSpec logging userDefined) us) := by
  simp [effectiveFluentbit, processAgentConfig_fluentbit logging userDefined us hf hs]

theorem overlaidContainer_name (userDefined : NodeAgentConfig) :
    (overlaidContainer userDefined).Name = "fluent-bit" := by
  unfold overlaidContainer
  by_cases hw : userDefined.Profile = "windows"
  · rw [if_pos hw]
    rfl
  · rw [if_neg hw]
    rfl

/-- One override container of the name of the single base container is merged into it. -/
theorem mergeContainers_same_name (x w : Container) (h : x.Name = w.Name) :
    mergeContainers [x] [w] = [Container.merge x w] := by
  have hname : (Container.merge x w).Name = w.Name := Container.merge_name x w h
  unfold mergeContainers
  simp only [List.foldl, upsertContainer, h, if_true]
  by_cases hsame : [Container.merge x w] = [x]
  · rw [if_pos hsame]
    exact hsame.symm
  · rw [if_neg hsame]
    simp [hasContainer, hname, mergeSortedSlice]

/-- After the defaults and the profile overlay the spec has one container. -/
theorem podContainers_overlaidSpec (logging : Logging) (userDefined : NodeAgentConfig) :
    ∃ ds, (overlaidSpec logging userDefined).DaemonSetOverrides = some ds ∧
      ds.Spec.Template.Spec.Containers = [overlaidContainer userDefined] := by
  unfold overlaidSpec overlaidContainer
  by_cases hw : userDefined.Profile = "windows"
  · rw [if_pos hw, if_pos hw]
    refine ⟨_, rfl, ?_⟩
    simp only [DaemonSet.merge, PodTemplateSpec.merge, PodSpec.merge, fluentbitDefaultsSpec,
      userFluentbitSpec, NodeAgentFluentbitWindowsDefaults]
    exact mergeContainers_same_name _ _ rfl
  · rw [if_neg hw, if_neg hw]
    refine ⟨_, rfl, ?_⟩
    simp [DaemonSet.merge, PodTemplateSpec.merge, PodSpec.merge, fluentbitDefaultsSpec,
      mergeContainers_nil, fluentbitBaselineContainer, containerNameFluentbit]

/-- The containers of the effective spec: the user's containers merged by name into
the one container that the defaults and the overlay leave. -/
theorem podContainers_effective (logging : Logging) (userDefined : NodeAgentConfig)
    (us : NodeAgentFluentbit) :
    podContainers (NodeAgentFluentbit.merge (overlaidSpec logging userDefined) us)
      = mergeContainers [overlaidContainer userDefined] (podContainers us) := by
  obtain ⟨ds, hds, hc⟩ := podContainers_overlaidSpec logging userDefined
  rcases hd : us.DaemonSetOverrides with _ | uds
  · simp [podContainers, NodeAgentFluentbit.merge, hds, hd, mergePtr, hc, mergeContainers_nil]
  · simp [podContainers, NodeAgentFluentbit.merge, hds, hd, mergePtr, hc, DaemonSet.merge,
      PodTemplateSpec.merge, PodSpec.merge]

theorem foldl_merge_toList (x : Container) (uc : Option Container) :
    uc.toList.foldl Container.merge x = Container.merge x (uc.getD {}) := by
  rcases uc with _ | u
  · simp [Container.merge_empty]
  · simp

/-- The container named "fluent-bit" of the effective spec, when `uc` is the user's
container of that name, if any: the overlaid container under the user's. -/
theorem effective_primary_container (logging : Logging) (userDefined : NodeAgentConfig)
    (us : NodeAgentFluentbit) (uc : Option Container)
    (huc : (podContainers us).filter (fun c => c.Name == "fluent-bit") = uc.toList) :
    findContainer
        (podContainers (NodeAgentFluentbit.merge (overlaidSpec logging userDefined) us))
        "fluent-bit"
      = some (Container.merge (overlaidContainer userDefined) (uc.getD {})) := by
  rw [podContainers_effective]
  have h := findContainer_mergeContainers (overlaidContainer userDefined) (podContainers us)
  rw [overlaidContainer_name, huc, foldl_merge_toList] at h
  exact h

/-- The name of the user's container named "fluent-bit", or of the empty container. -/
theorem user_container_name (cs : List Container) (uc : Option Container)
    (huc : cs.filter (fun c => c.Name == "fluent-bit") = uc.toList) :
    mergeString "fluent-bit" (uc.getD {}).Name = "fluent-bit" := by
  rcases uc with _ | u
  · rfl
  · have hmem : u ∈ cs.filter (fun c => c.Name == "fluent-bit") := by
      rw [huc]
      simp
    have hname : u.Name = "fluent-bit" := by simpa using (List.mem_filter.mp hmem).2
    simp [mergeString, hname]

/-- Reading the resource quantities of the windows overlay merged over the baseline:
the overlay sets every key that the baseline sets. -/
theorem get_windows_quantities (k : String) :
    StrMap.get (mergeMap fluentbitBaselineContainer.Resources.Limits
        fluentbitWindowsContainer.Resources.Limits) k
      = StrMap.get fluentbitWindowsContainer.Resources.Limits k ∧
    StrMap.get (mergeMap fluentbitBaselineContainer.Resources.Requests
        fluentbitWindowsContainer.Resources.Requests) k
      = StrMap.get fluentbitWindowsContainer.Resources.Requests k := by
  simp only [StrMap.get_mergeMap, fluentbitBaselineContainer, fluentbitWindowsContainer,
    StrMap.get]
  by_cases h1 : "memory" = k
  · simp [h1]
  · by_cases h2 : "cpu" = k
    · simp [h2]
    · simp [h1, h2]

/-- C4: for every fluent-forwarder raw config with profile "windows", `uc` being the
user's container named "fluent-bit" if any, `processAgent` builds an effective spec in
which each field that both the baseline and the windows overlay set holds the user's
value when the user set it, and the overlay's value, not the baseline's, when the user
left it unset: the containers path, the logs path, the tail input path, and of the
container named "fluent-bit" the name, the image, the command and every resource limit
and request. -/
theorem windows_overlay_precedence (logging : Logging) (userDefined : NodeAgentConfig)
    (us : NodeAgentFluentbit) (uc : Option Container)
    (hf : userDefined.FluentbitSpec = some us)
    (hs : userDefined.SyslogNGSpec = none) (hw : userDefined.Profile = "windows")
    (huc : (podContainers us).filter (fun c => c.Name == "fluent-bit") = uc.toList) :
    ∃ spec c, effectiveFluentbit logging userDefined = some spec ∧
      spec.ContainersPath
        = (if us.ContainersPath = "" then "C:\\ProgramData\\docker" else us.ContainersPath) ∧
      spec.VarLogsPath = (if us.VarLogsPath = "" then "C:\\var\\log" else us.VarLogsPath) ∧
      spec.InputTail.Path
        = (if us.InputTail.Path = "" then "C:\\var\\log\\containers\\*.log"
           else us.InputTail.Path) ∧
      findContainer (podContainers spec) "fluent-bit" = some c ∧
      c.Name = "fluent-bit" ∧
      c.Image
        = (if (uc.getD {}).Image = "" then "rancher/fluent-bit:1.6.10-rc7"
           else (uc.getD {}).Image) ∧
      c.Command
        = (match (uc.getD {}).Command with
           | [] => ["fluent-bit", "-c", "fluent-bit\\conf_operator\\fluent-bit.conf"]
           | a :: more => a :: more) ∧
      (∀ k, StrMap.get c.Resources.Limits k
        = (match StrMap.get (uc.getD {}).Resources.Limits k with
           | some v => some v
           | none => StrMap.get [("memory", "200M"), ("cpu", "200m")] k)) ∧
      (∀ k, StrMap.get c.Resources.Requests k
        = (match StrMap.get (uc.getD {}).Resources.Requests k with
           | some v => some v
           | none => StrMap.get [("memory", "100M"), ("cpu", "100m")] k)) ∧
      fluentbitProgramDefault.ContainersPath = "/var/lib/docker/containers" ∧
      fluentbitProgramDefault.VarLogsPath = "/var/log" ∧
      fluentbitProgramDefault.InputTail.Path = "/var/log/containers/*.log" ∧
      podContainers fluentbitProgramDefault = [fluentbitBaselineContainer] ∧
      podContainers (userFluentbitSpec NodeAgentFluentbitWindowsDefaults)
        = [fluentbitWindowsContainer] := by
  refine ⟨NodeAgentFluentbit.merge (overlaidSpec logging userDefined) us,
    Container.merge (overlaidContainer userDefined) (uc.getD {}),
    effectiveFluentbit_eq logging userDefined us hf hs, ?_, ?_, ?_,
    effective_primary_container logging userDefined us uc huc, ?_, ?_, ?_, ?_, ?_,
    rfl, rfl, rfl, rfl, rfl⟩
  · simp [NodeAgentFluentbit.merge, overlaidSpec, hw, mergeString, userFluentbitSpec,
      NodeAgentFluentbitWindowsDefaults]
  · simp [NodeAgentFluentbit.merge, overlaidSpec, hw, mergeString, userFluentbitSpec,
      NodeAgentFluentbitWindowsDefaults]
  · simp [NodeAgentFluentbit.merge, overlaidSpec, hw, mergeString, userFluentbitSpec,
      NodeAgentFluentbitWindowsDefaults, InputTail.merge]
  · simp only [Container.merge, overlaidContainer_name]
    exact user_container_name _ uc huc
  · simp [Container.merge, overlaidContainer, hw, mergeString, fluentbitBaselineContainer,
      fluentbitWindowsContainer]
  · rcases hcmd : (uc.getD {}).Command with _ | ⟨a, more⟩ <;>
      simp [Container.merge, overlaidContainer, hw, mergeSeq, fluentbitBaselineContainer,
        fluentbitWindowsContainer, hcmd]
  · intro k
    simp only [Container.merge, overlaidContainer, hw, if_true, StrMap.get_mergeMap]
    rw [← StrMap.get_mergeMap, (get_windows_quantities k).1]
    rfl
  · intro k
    simp only [Container.merge, overlaidContainer, hw, if_true, StrMap.get_mergeMap]
    rw [← StrMap.get_mergeMap, (get_windows_quantities k).2]
    rfl

/-- Witness of C4: a windows agent whose user sets the containers path, the image of
the fluent-bit container and its memory limit, and nothing else. -/
theorem windows_overlay_precedence_witness :
    ∃ spec c, effectiveFluentbit sampleLogging sampleWindowsImageConfig = some spec ∧
      spec.ContainersPath = "D:\\docker" ∧ spec.VarLogsPath = "C:\\var\\log" ∧
      findContainer (podContainers spec) "fluent-bit" = some c ∧
      c.Image = "example/fluent-bit:windows" ∧
      c.Command = ["fluent-bit", "-c", "fluent-bit\\conf_operator\\fluent-bit.conf"] ∧
      StrMap.get c.Resources.Limits "memory" = some "300M" ∧
      StrMap.get c.Resources.Limits "cpu" = some "200m" := by
  obtain ⟨spec, c, h, h1, h2, _, hc, _, himg, hcmd, hlim, _⟩ :=
    windows_overlay_precedence sampleLogging sampleWindowsImageConfig sampleWindowsImageSpec
      (some sampleWindowsImageContainer) rfl rfl rfl (by decide)
  refine ⟨spec, c, h, ?_, ?_, hc, ?_, ?_, ?_, ?_⟩
  · simpa [sampleWindowsImageSpec] using h1
  · simpa [sampleWindowsImageSpec] using h2
  · rw [himg]
    decide
  · rw [hcmd]
    rfl
  · rw [hlim]
    decide
  · rw [hlim]
    decide

theorem StrMap.get_mergeMap_nil (m : StrMap) (k : String) :
    StrMap.get (mergeMap [] m) k = StrMap.get m k := by
  rw [StrMap.get_mergeMap]
  rcases StrMap.get m k with _ | v <;> rfl

/-- The scalar fields of the effective spec that only the baseline and the user set. -/
theorem effective_scalars (logging : Logging) (userDefined : NodeAgentConfig)
    (us : NodeAgentFluentbit) :
    (NodeAgentFluentbit.merge (overlaidSpec logging userDefined) us).Flush
        = (if us.Flush = 0 then 1 else us.Flush) ∧
      (NodeAgentFluentbit.merge (overlaidSpec logging userDefined) us).Grace
        = (if us.Grace = 0 then 5 else us.Grace) ∧
      (NodeAgentFluentbit.merge (overlaidSpec logging userDefined) us).LogLevel
        = (if us.LogLevel = "" then "info" else us.LogLevel) ∧
      (NodeAgentFluentbit.merge (overlaidSpec logging userDefined) us).CoroStackSize
        = (if us.CoroStackSize = 0 then 24576 else us.CoroStackSize) ∧
      (NodeAgentFluentbit.merge (overlaidSpec logging userDefined) us).InputTail.RefreshInterval
        = (if us.InputTail.RefreshInterval = "" then "5" else us.InputTail.RefreshInterval) ∧
      (NodeAgentFluentbit.merge (overlaidSpec logging userDefined) us).InputTail.SkipLongLines
        = (if us.InputTail.SkipLongLines = "" then "On" else us.InputTail.SkipLongLines) ∧
      (NodeAgentFluentbit.merge (overlaidSpec logging userDefined) us).InputTail.DB
        = (match us.InputTail.DB with
           | some db => some db
           | none => some "/tail-db/tail-containers-state.db") ∧
      (NodeAgentFluentbit.merge (overlaidSpec logging userDefined) us).InputTail.MemBufLimit
        = (if us.InputTail.MemBufLimit = "" then "5MB" else us.InputTail.MemBufLimit) ∧
      (NodeAgentFluentbit.merge (overlaidSpec logging userDefined) us).InputTail.Tag
        = (if us.InputTail.Tag = "" then "kubernetes.*" else us.InputTail.Tag) ∧
      (NodeAgentFluentbit.merge (overlaidSpec logging userDefined) us).BufferStorage.StoragePath
        = (if us.BufferStorage.StoragePath = "" then "/buffers"
           else us.BufferStorage.StoragePath) ∧
      Option.map (fun fo => fo.RetryLimit)
          (NodeAgentFluentbit.merge (overlaidSpec logging userDefined) us).ForwardOptions
        = (match us.ForwardOptions with
           | some fo => some (if fo.RetryLimit = "" then "False" else fo.RetryLimit)
           | none => some "False") ∧
      Option.map (fun sec => sec.RoleBasedAccessControlCreate)
          (NodeAgentFluentbit.merge (overlaidSpec logging userDefined) us).Security
        = (match us.Security with
           | some sec =>
             some (match sec.RoleBasedAccessControlCreate with
                   | some b => some b
                   | none => some true)
           | none => some (some true)) ∧
      (userDefined.Profile ≠ "windows" →
        (NodeAgentFluentbit.merge (overlaidSpec logging userDefined) us).ContainersPath
          = (if us.ContainersPath = "" then "/var/lib/docker/containers"
             else us.ContainersPath) ∧
        (NodeAgentFluentbit.merge (overlaidSpec logging userDefined) us).VarLogsPath
          = (if us.VarLogsPath = "" then "/var/log" else us.VarLogsPath) ∧
        (NodeAgentFluentbit.merge (overlaidSpec logging userDefined) us).InputTail.Path
          = (if us.InputTail.Path = "" then "/var/log/containers/*.log"
             else us.InputTail.Path)) := by
  obtain ⟨ds, fl, gr, ll, css, metrics, sec, cp, vlp, ⟨itp, itr, its, itdb, itm, itt⟩, aws, fk,
    ⟨sp⟩, ldc, fo⟩ := us
  by_cases hw : userDefined.Profile = "windows"
  · simp only [hw, ne_eq, not_true_eq_false, false_implies, and_true]
    rcases fo with _ | ⟨rl⟩ <;> rcases sec with _ | ⟨sa, _ | b, sc, psc⟩ <;>
      rcases itdb with _ | db <;>
      simp [NodeAgentFluentbit.merge, overlaidSpec, hw, mergeString, mergeInt,
        userFluentbitSpec, NodeAgentFluentbitWindowsDefaults, InputTail.merge,
        BufferStorage.merge, ForwardOptions.merge, Security.merge, mergePtr, mergeScalarPtr,
        fluentbitDefaultsSpec, fluentbitProgramDefault]
  · simp only [hw, ne_eq, not_false_eq_true, true_implies]
    rcases fo with _ | ⟨rl⟩ <;> rcases sec with _ | ⟨sa, _ | b, sc, psc⟩ <;>
      rcases itdb with _ | db <;>
      simp [NodeAgentFluentbit.merge, overlaidSpec, hw, mergeString, mergeInt,
        userFluentbitSpec, InputTail.merge,
        BufferStorage.merge, ForwardOptions.merge, Security.merge, mergePtr, mergeScalarPtr,
        fluentbitDefaultsSpec, fluentbitProgramDefault]

/-- The security contexts of the effective spec: present, and read key by key as the
user's. -/
theorem effective_security_contexts (logging : Logging) (userDefined : NodeAgentConfig)
    (us : NodeAgentFluentbit) :
    ∃ sec sc psc,
      (NodeAgentFluentbit.merge (overlaidSpec logging userDefined) us).Security = some sec ∧
      sec.SecurityContext = some sc ∧ sec.PodSecurityContext = some psc ∧
      (∀ k, StrMap.get sc k = StrMap.get (userSecurityContext us) k) ∧
      (∀ k, StrMap.get psc k = StrMap.get (userPodSecurityContext us) k) := by
  have hsec : (overlaidSpec logging userDefined).Security
      = some { RoleBasedAccessControlCreate := some true, SecurityContext := some [],
               PodSecurityContext := some [] } := by
    by_cases hw : userDefined.Profile = "windows" <;>
      simp [overlaidSpec, hw, NodeAgentFluentbit.merge, mergePtr, userFluentbitSpec,
        NodeAgentFluentbitWindowsDefaults, fluentbitDefaultsSpec, fluentbitProgramDefault]
  rcases hus : us.Security with _ | ⟨sa, rb, _ | sc, _ | psc⟩
  all_goals
    refine ⟨_, _, _, by simp only [NodeAgentFluentbit.merge, hsec, hus, mergePtr]; rfl,
      rfl, rfl, ?_, ?_⟩
  all_goals
    intro k
    simp [userSecurityContext, userPodSecurityContext, hus, StrMap.get_mergeMap_nil,
      StrMap.get]

/-- Reading the pod-template annotations of the effective spec: the user's binding of
a key, else the binding that the defaults and the overlay leave. -/
theorem get_podAnnotations_effective (logging : Logging) (userDefined : NodeAgentConfig)
    (us : NodeAgentFluentbit) (k : String) :
    StrMap.get (podAnnotations (NodeAgentFluentbit.merge (overlaidSpec logging userDefined) us)) k
      = match StrMap.get (podAnnotations us) k with
        | some v => some v
        | none => StrMap.get (podAnnotations (overlaidSpec logging userDefined)) k := by
  obtain ⟨ods, hod, _⟩ := podContainers_overlaidSpec logging userDefined
  rcases hd : us.DaemonSetOverrides with _ | ds
  · simp [podAnnotations, NodeAgentFluentbit.merge, mergePtr, hd, hod, StrMap.get]
  · simp [podAnnotations, NodeAgentFluentbit.merge, mergePtr, hd, hod, DaemonSet.merge,
      PodTemplateSpec.merge, ObjectMeta.merge, StrMap.get_mergeMap]

/-- C5: for every fluent-forwarder raw config, `uc` being the user's container named
"fluent-bit" if any, `processAgent` builds an effective spec in which every field of
the baseline holds the user's value when the user set it to a non-zero value and the
baseline value when the user left it unset: the scalars of the spec, the security
contexts (empty in the baseline, then read key by key as the user's), the user's
annotations key by key, and of the container named "fluent-bit" the name and the pull
policy; for the fields that the windows overlay touches (the three paths, and the
image, the command and the resource quantities of that container) this holds under
every other profile. -/
theorem override_wins_over_baseline (logging : Logging) (userDefined : NodeAgentConfig)
    (us : NodeAgentFluentbit) (uc : Option Container)
    (hf : userDefined.FluentbitSpec = some us) (hs : userDefined.SyslogNGSpec = none)
    (huc : (podContainers us).filter (fun c => c.Name == "fluent-bit") = uc.toList) :
    ∃ spec c, effectiveFluentbit logging userDefined = some spec ∧
      spec.Flush = (if us.Flush = 0 then 1 else us.Flush) ∧
      spec.Grace = (if us.Grace = 0 then 5 else us.Grace) ∧
      spec.LogLevel = (if us.LogLevel = "" then "info" else us.LogLevel) ∧
      spec.CoroStackSize = (if us.CoroStackSize = 0 then 24576 else us.CoroStackSize) ∧
      spec.InputTail.RefreshInterval
        = (if us.InputTail.RefreshInterval = "" then "5" else us.InputTail.RefreshInterval) ∧
      spec.InputTail.SkipLongLines
        = (if us.InputTail.SkipLongLines = "" then "On" else us.InputTail.SkipLongLines) ∧
      spec.InputTail.DB
        = (match us.InputTail.DB with
           | some db => some db
           | none => some "/tail-db/tail-containers-state.db") ∧
      spec.InputTail.MemBufLimit
        = (if us.InputTail.MemBufLimit = "" then "5MB" else us.InputTail.MemBufLimit) ∧
      spec.InputTail.Tag = (if us.InputTail.Tag = "" then "kubernetes.*" else us.InputTail.Tag) ∧
      spec.BufferStorage.StoragePath
        = (if us.BufferStorage.StoragePath = "" then "/buffers"
           else us.BufferStorage.StoragePath) ∧
      Option.map (fun fo => fo.RetryLimit) spec.ForwardOptions
        = (match us.ForwardOptions with
           | some fo => some (if fo.RetryLimit = "" then "False" else fo.RetryLimit)
           | none => some "False") ∧
      Option.map (fun sec => sec.RoleBasedAccessControlCreate) spec.Security
        = (match us.Security with
           | some sec =>
             some (match sec.RoleBasedAccessControlCreate with
                   | some b => some b
                   | none => some true)
           | none => some (some true)) ∧
      (∃ sec sc psc, spec.Security = some sec ∧
        sec.SecurityContext = some sc ∧ sec.PodSecurityContext = some psc ∧
        (∀ k, StrMap.get sc k = StrMap.get (userSecurityContext us) k) ∧
        (∀ k, StrMap.get psc k = StrMap.get (userPodSecurityContext us) k)) ∧
      (∀ k v, StrMap.get (podAnnotations us) k = some v →
        StrMap.get (podAnnotations spec) k = some v) ∧
      findContainer (podContainers spec) "fluent-bit" = some c ∧
      c.Name = "fluent-bit" ∧
      c.ImagePullPolicy
        = (if (uc.getD {}).ImagePullPolicy = "" then "IfNotPresent"
           else (uc.getD {}).ImagePullPolicy) ∧
      (userDefined.Profile ≠ "windows" →
        spec.ContainersPath
          = (if us.ContainersPath = "" then "/var/lib/docker/containers"
             else us.ContainersPath) ∧
        spec.VarLogsPath = (if us.VarLogsPath = "" then "/var/log" else us.VarLogsPath) ∧
        spec.InputTail.Path
          = (if us.InputTail.Path = "" then "/var/log/containers/*.log"
             else us.InputTail.Path) ∧
        c.Image
          = (if (uc.getD {}).Image = "" then "fluent/fluent-bit:1.9.10"
             else (uc.getD {}).Image) ∧
        c.Command
          = (match (uc.getD {}).Command with
             | [] => ["/fluent-bit/bin/fluent-bit", "-c",
                      "/fluent-bit/conf_operator/fluent-bit.conf"]
             | a :: more => a :: more) ∧
        (∀ k, StrMap.get c.Resources.Limits k
          = (match StrMap.get (uc.getD {}).Resources.Limits k with
             | some v => some v
             | none => StrMap.get [("memory", "100M"), ("cpu", "200m")] k)) ∧
        (∀ k, StrMap.get c.Resources.Requests k
          = (match StrMap.get (uc.getD {}).Resources.Requests k with
             | some v => some v
             | none => StrMap.get [("memory", "50M"), ("cpu", "100m")] k))) := by
  obtain ⟨h1, h2, h3, h4, h5, h6, h7, h8, h9, h10, h11, h12, h13⟩ :=
    effective_scalars logging userDefined us
  refine ⟨NodeAgentFluentbit.merge (overlaidSpec logging userDefined) us,
    Container.merge (overlaidContainer userDefined) (uc.getD {}),
    effectiveFluentbit_eq logging userDefined us hf hs,
    h1, h2, h3, h4, h5, h6, h7, h8, h9, h10, h11, h12,
    effective_security_contexts logging userDefined us, ?_,
    effective_primary_container logging userDefined us uc huc, ?_, ?_, ?_⟩
  · intro k v hk
    rw [get_podAnnotations_effective, hk]
  · simp only [Container.merge, overlaidContainer_name]
    exact user_container_name _ uc huc
  · by_cases hw : userDefined.Profile = "windows" <;>
      simp [Container.merge, overlaidContainer, hw, mergeString, fluentbitBaselineContainer,
        fluentbitWindowsContainer]
  · intro hw
    obtain ⟨p1, p2, p3⟩ := h13 hw
    refine ⟨p1, p2, p3, ?_, ?_, ?_, ?_⟩
    · simp [Container.merge, overlaidContainer, hw, mergeString, fluentbitBaselineContainer]
    · rcases hcmd : (uc.getD {}).Command with _ | ⟨a, more⟩ <;>
        simp [Container.merge, overlaidContainer, hw, mergeSeq, fluentbitBaselineContainer,
          hcmd]
    · intro k
      simp only [Container.merge, overlaidContainer, hw, if_false, StrMap.get_mergeMap]
      rfl
    · intro k
      simp only [Container.merge, overlaidContainer, hw, if_false, StrMap.get_mergeMap]
      rfl

/-- Witness of C5: a user who sets the log level, the memory limit of the fluent-bit
container and an annotation, and leaves the rest unset. -/
theorem override_wins_over_baseline_witness :
    ∃ spec c, effectiveFluentbit sampleLogging sampleTunedConfig = some spec ∧
      spec.LogLevel = "debug" ∧ spec.Flush = 1 ∧
      findContainer (podContainers spec) "fluent-bit" = some c ∧
      c.Image = "fluent/fluent-bit:1.9.10" ∧
      StrMap.get c.Resources.Limits "memory" = some "150M" ∧
      StrMap.get c.Resources.Limits "cpu" = some "200m" ∧
      StrMap.get (podAnnotations spec) "team" = some "logging" := by
  obtain ⟨spec, c, h, h1, _, h3, _, _, _, _, _, _, _, _, _, _, hann, hc, _, _, hlinux⟩ :=
    override_wins_over_baseline sampleLogging sampleTunedConfig sampleTunedSpec
      (some sampleTunedContainer) rfl rfl (by decide)
  obtain ⟨_, _, _, himg, _, hlim, _⟩ := hlinux (by decide)
  refine ⟨spec, c, h, ?_, ?_, hc, ?_, ?_, ?_, hann "team" "logging" (by decide)⟩
  · simpa [sampleTunedSpec] using h3
  · simpa [sampleTunedSpec] using h1
  · rw [himg]
    decide
  · rw [hlim]
    decide
  · rw [hlim]
    decide

/-- C15, as stated, fails: for a linux agent whose user lists a sidecar container in
front of the fluent-bit container, the effective spec has metrics, its containers are
the sidecar and then the fluent-bit container, and the first container, the sidecar,
has no liveness probe; the probe sits on the container named "fluent-bit". -/
theorem liveness_probe_not_on_first_container :
    Option.map (fun spec => (spec.Metrics.isSome, (podContainers spec).map
        (fun c => (c.Name, c.LivenessProbe.isSome))))
      (effectiveFluentbit sampleLogging sampleSidecarConfig)
      = some (true, [("sidecar", false), ("fluent-bit", true)]) := by
  rfl

/-- The probe of the container that the defaults and the overlay leave. -/
theorem overlaidContainer_probe (userDefined : NodeAgentConfig) :
    (overlaidContainer userDefined).LivenessProbe = resolvedLivenessProbe userDefined := by
  unfold overlaidContainer
  by_cases hw : userDefined.Profile = "windows"
  · rw [if_pos hw]
    simp [Container.merge, fluentbitWindowsContainer, mergePtr_none]
  · rw [if_neg hw]

/-- The probe of a container merged over a container with the probe `d`: `d` under the
user's probe. -/
theorem merged_probe (x : Container) (d : Probe) (uc : Option Container)
    (hx : x.LivenessProbe = some d) :
    (Container.merge x (uc.getD {})).LivenessProbe = some (Probe.merge d (userProbe uc)) := by
  have hempty : Probe.merge d {} = d := by
    obtain ⟨hg, a, b, c, e, f⟩ := d
    simp [Probe.merge, mergePtr_none, mergeInt]
  rcases uc with _ | u
  · simp [Container.merge, hx, mergePtr, userProbe, hempty]
  · rcases hp : u.LivenessProbe with _ | p
    · simp [Container.merge, hx, hp, mergePtr, userProbe, hempty]
    · simp [Container.merge, hx, hp, mergePtr, userProbe]

/-- C15, amended: for every fluent-forwarder raw config whose metrics are enabled (the
user gives a metrics sub-spec, or the liveness-default-check flag is unset or true and
the profile is not "windows"), `uc` being the user's container named "fluent-bit" if
any, the effective spec has metrics `m` and a container named "fluent-bit" with a
liveness probe: initial delay 10, period 10 and failure threshold 3, each replaced by
the user's value when the user's probe sets it; timeout and success threshold as the
user's probe has them; and as handler HTTP GET against `m.Path` and `m.Port` when the
user's probe gives no HTTP GET handler, else an HTTP GET handler with the user's path,
or `m.Path` when the user's handler names no path.  That container is the first and
only container when the user gives no containers, and the first container when the
user's container list starts with the container named "fluent-bit". -/
theorem liveness_probe_of_effective_spec (logging : Logging) (userDefined : NodeAgentConfig)
    (us : NodeAgentFluentbit) (uc : Option Container)
    (hf : userDefined.FluentbitSpec = some us) (hs : userDefined.SyslogNGSpec = none)
    (hen : us.Metrics ≠ none ∨
      ((us.LivenessDefaultCheck = none ∨ us.LivenessDefaultCheck = some true) ∧
        userDefined.Profile ≠ "windows"))
    (huc : (podContainers us).filter (fun c => c.Name == "fluent-bit") = uc.toList) :
    ∃ spec m c p, effectiveFluentbit logging userDefined = some spec ∧
      spec.Metrics = some m ∧
      findContainer (podContainers spec) "fluent-bit" = some c ∧
      c.LivenessProbe = some p ∧
      p.InitialDelaySeconds
        = (if (userProbe uc).InitialDelaySeconds = 0 then 10
           else (userProbe uc).InitialDelaySeconds) ∧
      p.PeriodSeconds
        = (if (userProbe uc).PeriodSeconds = 0 then 10 else (userProbe uc).PeriodSeconds) ∧
      p.FailureThreshold
        = (if (userProbe uc).FailureThreshold = 0 then 3
           else (userProbe uc).FailureThreshold) ∧
      p.TimeoutSeconds = (userProbe uc).TimeoutSeconds ∧
      p.SuccessThreshold = (userProbe uc).SuccessThreshold ∧
      ((userProbe uc).HTTPGet = none →
        p.HTTPGet = some { Path := m.Path, Port := m.Port }) ∧
      (∀ h, (userProbe uc).HTTPGet = some h →
        ∃ g, p.HTTPGet = some g ∧ g.Path = (if h.Path = "" then m.Path else h.Path)) ∧
      (podContainers us = [] → podContainers spec = [c]) ∧
      (∀ u rest, podContainers us = u :: rest → u.Name = "fluent-bit" →
        (podContainers spec).head? = some c) := by
  obtain ⟨m0, hres, m, hmet, hpath, hport⟩ : ∃ m0, resolvedMetrics userDefined = some m0 ∧
      ∃ m, mergePtr Metrics.merge (some m0) us.Metrics = some m ∧
        m.Path = m0.Path ∧ m.Port = m0.Port := by
    rcases hum : us.Metrics with _ | um
    · have hen' : (us.LivenessDefaultCheck = none ∨ us.LivenessDefaultCheck = some true) ∧
          userDefined.Profile ≠ "windows" := by
        rcases hen with h | h
        · exact absurd hum h
        · exact h
      refine ⟨{ Port := 2020, Path := "/" }, ?_, { Port := 2020, Path := "/" }, rfl, rfl, rfl⟩
      simp [resolvedMetrics, userFluentbitSpec, hf, hum, hen'.1, hen'.2]
    · refine ⟨Metrics.merge metricsDefault um, ?_,
        Metrics.merge (Metrics.merge metricsDefault um) um, rfl, ?_, ?_⟩
      · simp [resolvedMetrics, userFluentbitSpec, hf, hum]
      · simp only [Metrics.merge, mergeString_idem]
      · simp only [Metrics.merge, mergeInt_idem]
  have hprobe : (overlaidContainer userDefined).LivenessProbe
      = some (defaultLivenessProbe m) := by
    rw [overlaidContainer_probe]
    simp only [resolvedLivenessProbe, hres, Probe.merge, defaultLivenessProbe, mergePtr, hpath,
      hport]
    rfl
  have hc := effective_primary_container logging userDefined us uc huc
  refine ⟨NodeAgentFluentbit.merge (overlaidSpec logging userDefined) us, m,
    Container.merge (overlaidContainer userDefined) (uc.getD {}),
    Probe.merge (defaultLivenessProbe m) (userProbe uc),
    effectiveFluentbit_eq logging userDefined us hf hs, ?_, hc,
    merged_probe _ _ uc hprobe, ?_, ?_, ?_, ?_, ?_, ?_, ?_, ?_, ?_⟩
  · simp only [NodeAgentFluentbit.merge, overlaidSpec_Metrics, hres, hmet]
  · simp only [Probe.merge, defaultLivenessProbe, mergeInt]
  · simp only [Probe.merge, defaultLivenessProbe, mergeInt]
  · simp only [Probe.merge, defaultLivenessProbe, mergeInt]
  · simp only [Probe.merge, defaultLivenessProbe, mergeInt]
    by_cases h0 : (userProbe uc).TimeoutSeconds = 0 <;> simp [h0]
  · simp only [Probe.merge, defaultLivenessProbe, mergeInt]
    by_cases h0 : (userProbe uc).SuccessThreshold = 0 <;> simp [h0]
  · intro hnone
    simp [Probe.merge, defaultLivenessProbe, mergePtr, hnone]
  · intro h hsome
    refine ⟨HTTPGetAction.merge { Path := m.Path, Port := m.Port } h, ?_, ?_⟩
    · simp [Probe.merge, defaultLivenessProbe, mergePtr, hsome]
    · simp only [HTTPGetAction.merge, mergeString]
  · intro hnil
    have hnone : uc = none := by
      rw [hnil] at huc
      rcases uc with _ | u
      · rfl
      · simp at huc
    rw [podContainers_effective, hnil, mergeContainers_nil, hnone]
    simp [Container.merge_empty]
  · intro u rest hlist hname
    rw [podContainers_effective, hlist,
      head?_mergeContainers _ u rest (by rw [hname, overlaidContainer_name]),
      overlaidContainer_name, ← hlist, huc, foldl_merge_toList]

/-- Witness of amended C15: the user sets the period of the probe of the fluent-bit
container to 30 seconds and nothing else. -/
theorem liveness_probe_of_effective_spec_witness :
    ∃ spec c p, effectiveFluentbit sampleLogging samplePeriodConfig = some spec ∧
      (podContainers spec).head? = some c ∧ c.LivenessProbe = some p ∧
      p.PeriodSeconds = 30 ∧ p.InitialDelaySeconds = 10 ∧ p.FailureThreshold = 3 ∧
      p.HTTPGet = some { Path := "/", Port := 2020 } := by
  obtain ⟨spec, m, c, p, h, hm, _, hp, hdelay, hperiod, hfail, _, _, hget, _, _, hhead⟩ :=
    liveness_probe_of_effective_spec sampleLogging samplePeriodConfig samplePeriodSpec
      (some samplePeriodContainer) rfl rfl (Or.inr ⟨Or.inl rfl, by decide⟩) (by decide)
  have hspec : spec.Metrics = some { Port := 2020, Path := "/" } := by
    have h' : effectiveFluentbit sampleLogging samplePeriodConfig = some spec := h
    rw [effectiveFluentbit_eq sampleLogging samplePeriodConfig samplePeriodSpec rfl rfl] at h'
    cases h'
    rfl
  rw [hspec] at hm
  cases hm
  refine ⟨spec, c, p, h, hhead samplePeriodContainer [] rfl rfl, hp, ?_, ?_, ?_, ?_⟩
  · rw [hperiod]
    decide
  · rw [hdelay]
    decide
  · rw [hfail]
    decide
  · exact hget rfl

/-- The probe survives the profile overlay and a user's container of the same name: a
windows agent with a metrics sub-spec, and a linux agent whose user gives the image of
the fluent-bit container, each have one container, with the liveness probe and the
pull policy of the baseline. -/
theorem liveness_probe_kept_by_name_merge :
    Option.map (fun spec => (podContainers spec).map
        (fun c => (c.Name, c.Image, c.ImagePullPolicy, c.LivenessProbe.isSome)))
      (effectiveFluentbit sampleLogging sampleWindowsMetricsConfig)
      = some [("fluent-bit", "rancher/fluent-bit:1.6.10-rc7", "IfNotPresent", true)] ∧
    Option.map (fun spec => (podContainers spec).map
        (fun c => (c.Name, c.Image, c.ImagePullPolicy, c.LivenessProbe.isSome)))
      (effectiveFluentbit sampleLogging sampleOwnContainerConfig)
      = some [("fluent-bit", "example/fluent-bit:custom", "IfNotPresent", true)] := by
  constructor <;> rfl

end NodeAgent
